import Mathlib

set_option autoImplicit false
set_option maxRecDepth 20000

/-!
Verification development for the crash-snapshot core: the Mach-O segment
reader (`util/mac/mach_o_image_segment_reader.h`) and the Mac exception
snapshot (`ExceptionSnapshotMac`).  The available sources are the class
declarations; method bodies that are not present in the sources are
modelled from the specification, as marked on each such definition.
-/

namespace Crashpad

/-- Bytes of remote memory are modelled as natural numbers; a byte
contributes only its value modulo 256. -/
abbrev Byte := Nat

/-- Value of a little-endian byte list. -/
def leValue : List Byte → Nat
  | [] => 0
  | b :: bs => b % 256 + 256 * leValue bs

/-- Little-endian encoding of a value into a given number of bytes. -/
def leBytes : Nat → Nat → List Byte
  | 0, _ => []
  | w + 1, v => v % 256 :: leBytes w (v / 256)

/-- Conversion of a mathematical integer to a C `uint64_t` value, as in the
widening of a `mach_exception_data_type_t` exception code to 64 bits. -/
def toUInt64C (i : Int) : Nat := (i % (2 ^ 64 : Int)).toNat

/-- Conversion of a mathematical integer to a C `uint32_t` value, as in the
truncating store into the `uint32_t exception_code_0_` member. -/
def toUInt32C (i : Int) : Nat := (i % (2 ^ 32 : Int)).toNat

/-- Modelled from the spec: the body of
`MachOImageSegmentReader::SegmentNameString` is not among the available
sources.  A segment name is up to 16 bytes and not necessarily
NUL-terminated; the normalized name is the shorter of (bytes up to the
first embedded NUL, 16 bytes). -/
def SegmentNameString (segment_name_c : List Byte) : List Byte :=
  (segment_name_c.take 16).takeWhile (fun b => b ≠ 0)

/-- Modelled from the spec: the body of
`MachOImageSegmentReader::SectionNameString` is not among the available
sources.  Section names normalize exactly like segment names. -/
def SectionNameString (section_name_c : List Byte) : List Byte :=
  (section_name_c.take 16).takeWhile (fun b => b ≠ 0)

/-- Modelled from the spec: a segment-and-section label is the segment name
and the section name separated by a comma (byte 44). -/
def SegmentAndSectionNameString (segment_name_c section_name_c : List Byte) :
    List Byte :=
  SegmentNameString segment_name_c ++ [44] ++ SectionNameString section_name_c

/-- Modelled from the spec: the `InitializationStateDcheck` guard type is
declared in `util/misc/initialization_state_dcheck.h`, which is not among
the available sources.  Per-instance lifecycle:
uninitialized, then valid on a successful one-shot Initialize or invalid
on a failed one; valid and invalid are terminal. -/
inductive GuardState where
  | uninitialized
  | valid
  | invalid
  deriving DecidableEq, Repr

/-- Modelled from the spec: the remote-memory accessor collaborator.  It
reports the target process bitness, reads single bytes of the target
address space (failing on unmapped addresses), and resolves a Mach thread
port to a stable numeric thread identifier. -/
structure ProcessReader where
  is64Bit : Bool
  readByte : Nat → Option Byte
  resolveThread : Nat → Option Nat

/-- Read `n` bytes starting at `addr` from the remote process, failing if
any byte is unreadable. -/
def ProcessReader.readBytes (m : ProcessReader) (addr : Nat) :
    Nat → Option (List Byte)
  | 0 => some []
  | n + 1 =>
    match m.readByte addr with
    | none => none
    | some b => (m.readBytes (addr + 1) n).map (b :: ·)

/-- A remote process whose memory holds the byte list `bytes` starting at
address `base` and is unmapped elsewhere. -/
def memOfBytes (is64 : Bool) (base : Nat) (bytes : List Byte)
    (resolve : Nat → Option Nat) : ProcessReader where
  is64Bit := is64
  readByte := fun addr => if base ≤ addr then bytes[addr - base]? else none
  resolveThread := resolve

/-- Normalized, bitness-independent image of a `segment_command` /
`segment_command_64` load-command record (`process_types::segment_command`). -/
structure SegmentCommand where
  cmd : Nat
  cmdsize : Nat
  segname : List Byte
  vmaddr : Nat
  vmsize : Nat
  fileoff : Nat
  filesize : Nat
  maxprot : Nat
  initprot : Nat
  nsects : Nat
  flags : Nat
  deriving DecidableEq, Repr

/-- Normalized, bitness-independent image of a `section` / `section_64`
record (`process_types::section`). -/
structure MachOSection where
  sectname : List Byte
  segname : List Byte
  addr : Nat
  size : Nat
  offset : Nat
  align : Nat
  reloff : Nat
  nreloc : Nat
  flags : Nat
  reserved1 : Nat
  reserved2 : Nat
  deriving DecidableEq, Repr

/-- Size in bytes of the fixed segment load-command header for the given
target bitness: `sizeof(segment_command)` = 56, `sizeof(segment_command_64)`
= 72. -/
def segmentCommandSize (is64 : Bool) : Nat := if is64 then 72 else 56

/-- Size in bytes of one section record for the given target bitness:
`sizeof(section)` = 68, `sizeof(section_64)` = 80. -/
def sectionRecordSize (is64 : Bool) : Nat := if is64 then 80 else 68

/-- Little-endian field of width `w` at byte offset `off` of a record. -/
def recField (b : List Byte) (off w : Nat) : Nat := leValue ((b.drop off).take w)

/-- Raw 16-byte name field at byte offset `off` of a record. -/
def recName (b : List Byte) (off : Nat) : List Byte := (b.drop off).take 16

/-- Modelled from the spec: bitness-aware decoding of a segment
load-command record into the normalized shape, following the ABI layouts of
`segment_command` (32-bit fields) and `segment_command_64` (64-bit
`vmaddr`/`vmsize`/`fileoff`/`filesize`).  The record layout is selected by
the target process bitness alone. -/
def decodeSegmentCommand (is64 : Bool) (b : List Byte) : SegmentCommand :=
  if is64 then
    { cmd := recField b 0 4, cmdsize := recField b 4 4, segname := recName b 8
      vmaddr := recField b 24 8, vmsize := recField b 32 8
      fileoff := recField b 40 8, filesize := recField b 48 8
      maxprot := recField b 56 4, initprot := recField b 60 4
      nsects := recField b 64 4, flags := recField b 68 4 }
  else
    { cmd := recField b 0 4, cmdsize := recField b 4 4, segname := recName b 8
      vmaddr := recField b 24 4, vmsize := recField b 28 4
      fileoff := recField b 32 4, filesize := recField b 36 4
      maxprot := recField b 40 4, initprot := recField b 44 4
      nsects := recField b 48 4, flags := recField b 52 4 }

/-- Modelled from the spec: bitness-aware decoding of one section record
into the normalized shape, following the ABI layouts of `section` and
`section_64` (the 64-bit record widens `addr`/`size` and appends a
`reserved3` field that has no normalized counterpart). -/
def decodeSection (is64 : Bool) (b : List Byte) : MachOSection :=
  if is64 then
    { sectname := recName b 0, segname := recName b 16
      addr := recField b 32 8, size := recField b 40 8
      offset := recField b 48 4, align := recField b 52 4
      reloff := recField b 56 4, nreloc := recField b 60 4
      flags := recField b 64 4, reserved1 := recField b 68 4
      reserved2 := recField b 72 4 }
  else
    { sectname := recName b 0, segname := recName b 16
      addr := recField b 32 4, size := recField b 36 4
      offset := recField b 40 4, align := recField b 44 4
      reloff := recField b 48 4, nreloc := recField b 52 4
      flags := recField b 56 4, reserved1 := recField b 60 4
      reserved2 := recField b 64 4 }

/-- Read and decode one section record at `addr` from the remote process. -/
def readSection (m : ProcessReader) (addr : Nat) : Option MachOSection :=
  (m.readBytes addr (sectionRecordSize m.is64Bit)).map (decodeSection m.is64Bit)

/-- Read and decode `n` consecutive section records starting at `addr`, in
file order, failing if any record is unreadable. -/
def readSections (m : ProcessReader) (addr : Nat) : Nat → Option (List MachOSection)
  | 0 => some []
  | n + 1 =>
    match readSection m addr with
    | none => none
    | some s =>
      (readSections m (addr + sectionRecordSize m.is64Bit) n).map (s :: ·)

/-- Modelled from the spec: the name-to-index map over the sections built
once at the end of Initialize, starting at index `i`.  `List.lookup`
returns the first matching entry, so lookup is first-occurrence-wins, as
the spec requires for duplicate section names. -/
def buildSectionMapFrom : Nat → List MachOSection → List (List Byte × Nat)
  | _, [] => []
  | i, s :: rest => (SectionNameString s.sectname, i) :: buildSectionMapFrom (i + 1) rest

/-- Name-to-index map over a section list, indices starting at 0. -/
def buildSectionMap (sections : List MachOSection) : List (List Byte × Nat) :=
  buildSectionMapFrom 0 sections

/-- The `MachOImageSegmentReader` instance state: the decoded segment
command, the section records in file order, the name-to-index map, and the
one-shot guard. -/
structure MachOImageSegmentReader where
  segment_command : SegmentCommand
  sections : List MachOSection
  section_map : List (List Byte × Nat)
  guard : GuardState
  deriving DecidableEq, Repr

namespace MachOImageSegmentReader

/-- A freshly constructed reader: guard uninitialized, fields empty. -/
def new : MachOImageSegmentReader where
  segment_command :=
    { cmd := 0, cmdsize := 0, segname := [], vmaddr := 0, vmsize := 0
      fileoff := 0, filesize := 0, maxprot := 0, initprot := 0, nsects := 0
      flags := 0 }
  sections := []
  section_map := []
  guard := .uninitialized

/-- Modelled from the spec: the decoding core of
`MachOImageSegmentReader::Initialize`, whose body is not among the
available sources.  Reads the fixed-size header at `load_command_address`
with the layout selected by the target bitness, validates that the
declared `cmdsize` equals the fixed header size plus
`nsects * sectionRecordSize`, reads `nsects` section records that follow
in file order, and builds the name-to-index map.  Failures carry a
diagnostic beginning with `load_command_info`. -/
def InitializeCore (m : ProcessReader) (load_command_address : Nat)
    (load_command_info : String) :
    Except String (SegmentCommand × List MachOSection) :=
  match m.readBytes load_command_address (segmentCommandSize m.is64Bit) with
  | none => .error (load_command_info ++ ": could not read segment load command")
  | some b =>
    let sc := decodeSegmentCommand m.is64Bit b
    if sc.cmdsize ≠
        segmentCommandSize m.is64Bit + sc.nsects * sectionRecordSize m.is64Bit then
      .error (load_command_info ++ ": incorrect segment load command size")
    else
      match readSections m (load_command_address + segmentCommandSize m.is64Bit)
          sc.nsects with
      | none => .error (load_command_info ++ ": could not read section")
      | some sections => .ok (sc, sections)

/-- Modelled from the spec: `MachOImageSegmentReader::Initialize`.  The
outer `none` is the abort of the one-shot guard on a second call; otherwise
the instance together with the success flag is returned, and on failure the
diagnostic is also produced and the guard is left permanently invalid. -/
def Initialize (m : ProcessReader) (load_command_address : Nat)
    (load_command_info : String) (r : MachOImageSegmentReader) :
    Option (MachOImageSegmentReader × Bool × Option String) :=
  match r.guard with
  | .uninitialized =>
    match InitializeCore m load_command_address load_command_info with
    | .error diag => some ({ r with guard := .invalid }, false, some diag)
    | .ok (sc, sections) =>
      some ({ segment_command := sc, sections := sections
              section_map := buildSectionMap sections, guard := .valid },
            true, none)
  | _ => none

/-- Accessor `Name()`: the segment name from the load command `segname`
field, guarded on a valid instance. -/
def Name (r : MachOImageSegmentReader) : Option (List Byte) :=
  if r.guard = .valid then some (SegmentNameString r.segment_command.segname)
  else none

/-- Accessor `vmaddr()`, guarded on a valid instance. -/
def vmaddr (r : MachOImageSegmentReader) : Option Nat :=
  if r.guard = .valid then some r.segment_command.vmaddr else none

/-- Accessor `vmsize()`, guarded on a valid instance. -/
def vmsize (r : MachOImageSegmentReader) : Option Nat :=
  if r.guard = .valid then some r.segment_command.vmsize else none

/-- Accessor `fileoff()`, guarded on a valid instance. -/
def fileoff (r : MachOImageSegmentReader) : Option Nat :=
  if r.guard = .valid then some r.segment_command.fileoff else none

/-- Accessor `nsects()`, guarded on a valid instance. -/
def nsects (r : MachOImageSegmentReader) : Option Nat :=
  if r.guard = .valid then some r.segment_command.nsects else none

/-- Modelled from the spec: `GetSectionByName`, whose body is not among the
available sources.  Looks the normalized name up in the section map;
`none` in the inner option is the NULL not-found sentinel.  The outer
guard models the validity contract. -/
def GetSectionByName (r : MachOImageSegmentReader) (section_name : List Byte) :
    Option (Option MachOSection) :=
  if r.guard = .valid then
    some ((r.section_map.lookup section_name).bind (fun i => r.sections[i]?))
  else none

/-- Modelled from the spec: `GetSectionAtIndex`, whose body is not among
the available sources.  Returns the section at the 0-based index in file
order; an out-of-range index aborts execution (`none`), as does use of an
instance that is not valid. -/
def GetSectionAtIndex (r : MachOImageSegmentReader) (index : Nat) :
    Option MachOSection :=
  if r.guard = .valid then r.sections[index]? else none

/-- Byte string of the reserved zero-page segment name `__PAGEZERO`. -/
def pagezeroSegmentName : List Byte := [95, 95, 80, 65, 71, 69, 90, 69, 82, 79]

/-- Modelled from the spec: `SegmentSlides`, whose body is not among the
available sources.  The segment slides unless it is the reserved zero-page
segment, identified by the platform naming convention `__PAGEZERO`, the
same classification the kernel uses. -/
def SegmentSlides (r : MachOImageSegmentReader) : Option Bool :=
  if r.guard = .valid then
    some (decide (SegmentNameString r.segment_command.segname ≠ pagezeroSegmentName))
  else none

end MachOImageSegmentReader

/-- Mach exception type `EXC_BAD_ACCESS`. -/
def EXC_BAD_ACCESS : Int := 1

/-- Mach exception type `EXC_BAD_INSTRUCTION`. -/
def EXC_BAD_INSTRUCTION : Int := 2

/-- Mach exception type `EXC_ARITHMETIC`. -/
def EXC_ARITHMETIC : Int := 3

/-- Mach exception type `EXC_EMULATION`. -/
def EXC_EMULATION : Int := 4

/-- Mach exception type `EXC_SOFTWARE`. -/
def EXC_SOFTWARE : Int := 5

/-- Mach exception type `EXC_BREAKPOINT`. -/
def EXC_BREAKPOINT : Int := 6

/-- Mach exception type `EXC_SYSCALL`. -/
def EXC_SYSCALL : Int := 7

/-- Mach exception type `EXC_MACH_SYSCALL`. -/
def EXC_MACH_SYSCALL : Int := 8

/-- Mach exception type `EXC_CRASH`. -/
def EXC_CRASH : Int := 10

/-- Modelled from the spec: the documented subset of exception type classes
whose faulting address derives from the captured instruction-pointer
register instead of the first exception code; the per-type table is sourced
from the platform exception-type documentation (faults reported at the
instruction itself), as the spec directs. -/
def ipDerivedExceptionTypes : List Int :=
  [EXC_BAD_INSTRUCTION, EXC_ARITHMETIC, EXC_EMULATION, EXC_BREAKPOINT]

/-- Whether the faulting address of this exception type derives from the
captured instruction pointer. -/
def usesInstructionPointer (exception : Int) : Bool :=
  ipDerivedExceptionTypes.contains exception

/-- The tagged CPU-context variant (`CPUContextX86` / `CPUContextX86_64`
member of the `context_union_`), selected once at capture time by the
target bitness.  The register file is the list of register values. -/
inductive CPUContext where
  | x86 (regs : List Nat)
  | x86_64 (regs : List Nat)
  deriving DecidableEq, Repr

/-- Thread-state flavor constant `x86_THREAD_STATE32`. -/
def x86ThreadState32Flavor : Nat := 1

/-- Thread-state flavor constant `x86_THREAD_STATE64`. -/
def x86ThreadState64Flavor : Nat := 4

/-- Combine consecutive pairs of 32-bit `natural_t` words into 64-bit
register values, low word first. -/
def combineWords : List Nat → List Nat
  | lo :: hi :: rest => (lo % 2 ^ 32 + 2 ^ 32 * (hi % 2 ^ 32)) :: combineWords rest
  | _ => []

/-- Modelled from the spec: decoding of the raw thread-state blob.  The
flavor selects which register layout the words represent
(`x86_thread_state32_t` has 16 `natural_t` words, `x86_thread_state64_t`
has 21 64-bit registers in 42 words), and the decoded variant must match
the target process bitness, never the capturing process bitness; any
mismatch is a decode failure. -/
def decodeCPUContext (is64 : Bool) (flavor : Nat) (state : List Nat) :
    Option CPUContext :=
  if is64 then
    if flavor = x86ThreadState64Flavor ∧ state.length = 42 then
      some (.x86_64 (combineWords state))
    else none
  else
    if flavor = x86ThreadState32Flavor ∧ state.length = 16 then
      some (.x86 (state.map (· % 2 ^ 32)))
    else none

/-- The captured instruction-pointer register: `eip` is register 10 of
`x86_thread_state32_t`; `rip` is register 16 of `x86_thread_state64_t`. -/
def CPUContext.InstructionPointer : CPUContext → Nat
  | .x86 regs => regs.getD 10 0
  | .x86_64 regs => regs.getD 16 0

/-- The `ExceptionSnapshotMac` instance state, mirroring the members of the
class declaration; `guard` stands for the one-shot `initialized_` member. -/
structure ExceptionSnapshotMac where
  context_ : CPUContext
  codes_ : List Nat
  thread_id_ : Nat
  exception_address_ : Nat
  exception_ : Int
  exception_code_0_ : Nat
  guard : GuardState
  deriving DecidableEq, Repr

namespace ExceptionSnapshotMac

/-- A freshly constructed snapshot: guard uninitialized, fields empty. -/
def new : ExceptionSnapshotMac where
  context_ := .x86 []
  codes_ := []
  thread_id_ := 0
  exception_address_ := 0
  exception_ := 0
  exception_code_0_ := 0
  guard := .uninitialized

/-- Modelled from the spec: `ExceptionSnapshotMac::Initialize`, whose body
is not among the available sources.  Resolves the exception thread, widens
each raw exception code to 64 bits preserving order, decodes the
thread-state blob into the bitness-correct context variant, and derives
the faulting address per exception type.  The outer `none` is the abort of
the one-shot guard on a second call; a decode or resolution failure
returns `false` and leaves the guard permanently invalid. -/
def Initialize (process_reader : ProcessReader) (exception_thread : Nat)
    (exception : Int) (code : List Int) (flavor : Nat) (state : List Nat)
    (s : ExceptionSnapshotMac) : Option (ExceptionSnapshotMac × Bool) :=
  match s.guard with
  | .uninitialized =>
    match process_reader.resolveThread exception_thread with
    | none => some ({ s with guard := .invalid }, false)
    | some tid =>
      if code.length < 1 then some ({ s with guard := .invalid }, false)
      else
        match decodeCPUContext process_reader.is64Bit flavor state with
        | none => some ({ s with guard := .invalid }, false)
        | some ctx =>
          some ({ context_ := ctx
                  codes_ := code.map toUInt64C
                  thread_id_ := tid
                  exception_address_ :=
                    if usesInstructionPointer exception then
                      ctx.InstructionPointer
                    else toUInt64C (code.headD 0)
                  exception_ := exception
                  exception_code_0_ := toUInt32C (code.headD 0)
                  guard := .valid }, true)
  | _ => none

/-- Accessor `Context()`, guarded on a valid instance. -/
def Context (s : ExceptionSnapshotMac) : Option CPUContext :=
  if s.guard = .valid then some s.context_ else none

/-- Accessor `ThreadID()`, guarded on a valid instance. -/
def ThreadID (s : ExceptionSnapshotMac) : Option Nat :=
  if s.guard = .valid then some s.thread_id_ else none

/-- Accessor `Exception()`: the `exception_type_t exception_` member
returned through the `uint32_t` interface, guarded on a valid instance. -/
def Exception (s : ExceptionSnapshotMac) : Option Nat :=
  if s.guard = .valid then some (toUInt32C s.exception_) else none

/-- Accessor `ExceptionInfo()`: the `uint32_t exception_code_0_` member,
guarded on a valid instance. -/
def ExceptionInfo (s : ExceptionSnapshotMac) : Option Nat :=
  if s.guard = .valid then some s.exception_code_0_ else none

/-- Accessor `ExceptionAddress()`, guarded on a valid instance. -/
def ExceptionAddress (s : ExceptionSnapshotMac) : Option Nat :=
  if s.guard = .valid then some s.exception_address_ else none

/-- Accessor `Codes()`, guarded on a valid instance. -/
def Codes (s : ExceptionSnapshotMac) : Option (List Nat) :=
  if s.guard = .valid then some s.codes_ else none

end ExceptionSnapshotMac

/-- Helper: takeWhile is take k when the predicate holds before index k and
fails at index k (vacuously when k is the length). -/
theorem takeWhile_eq_take_of_first_fail (p : Nat → Bool) :
    ∀ (b : List Nat) (k : Nat),
    (∀ j x, j < k → b[j]? = some x → p x = true) →
    (∀ x, b[k]? = some x → p x = false) →
    b.takeWhile p = b.take k
  | [], k, _, _ => by simp
  | a :: t, 0, _, hfail => by
    have ha : p a = false := hfail a (by simp)
    simp [List.takeWhile_cons, ha]
  | a :: t, k + 1, hok, hfail => by
    have ha : p a = true := hok 0 a (Nat.succ_pos k) (by simp)
    have ih := takeWhile_eq_take_of_first_fail p t k
      (fun j x hj hx => hok (j + 1) x (by omega) (by simpa using hx))
      (fun x hx => hfail x (by simpa using hx))
    simp [List.takeWhile_cons, ha, List.take_succ_cons, ih]

/-- C4: for every 16-byte raw name buffer, SegmentNameString and
SectionNameString return exactly the first k bytes when the first embedded
NUL is at position k < 16, and all 16 bytes when the buffer contains no
NUL. -/
theorem C4_name_normalization (b : List Byte) (hlen : b.length = 16) :
    (∀ k, k < 16 → b[k]? = some 0 → (∀ j, j < k → b[j]? ≠ some 0) →
      SegmentNameString b = b.take k ∧ SectionNameString b = b.take k) ∧
    ((∀ j, j < 16 → b[j]? ≠ some 0) →
      SegmentNameString b = b ∧ SectionNameString b = b) := by
  have htake : b.take 16 = b := List.take_of_length_le (by omega)
  have hseg : SegmentNameString b = b.takeWhile (fun x => x ≠ 0) := by
    rw [SegmentNameString, htake]
  have hsec : SectionNameString b = b.takeWhile (fun x => x ≠ 0) := by
    rw [SectionNameString, htake]
  constructor
  · intro k hk h0 hbefore
    have heq : b.takeWhile (fun x => x ≠ 0) = b.take k := by
      apply takeWhile_eq_take_of_first_fail
      · intro j x hj hx
        have hne : x ≠ 0 := by
          intro hx0
          exact hbefore j hj (hx0 ▸ hx)
        simpa using hne
      · intro x hx
        have : x = 0 := by
          have := h0 ▸ hx
          simpa using (Option.some.inj this).symm
        simp [this]
    exact ⟨hseg.trans heq, hsec.trans heq⟩
  · intro hnone
    have heq : b.takeWhile (fun x => x ≠ 0) = b.take 16 := by
      apply takeWhile_eq_take_of_first_fail
      · intro j x hj hx
        have hne : x ≠ 0 := by
          intro hx0
          exact hnone j (by omega) (hx0 ▸ hx)
        simpa using hne
      · intro x hx
        have : b[16]? = none := by
          apply List.getElem?_eq_none
          omega
        rw [this] at hx
        exact absurd hx (by simp)
    rw [htake] at heq
    exact ⟨hseg.trans heq, hsec.trans heq⟩

/-- Witness for C4 at concrete buffers: a `__TEXT` name padded with NULs
has its first NUL at position 6, and a full 16-byte name with no NUL
normalizes to itself. -/
theorem C4_name_normalization_witness :
    SegmentNameString [95, 95, 84, 69, 88, 84, 0, 0, 0, 0, 0, 0, 0, 0, 0, 0] =
      [95, 95, 84, 69, 88, 84] ∧
    SegmentNameString [95, 95, 65, 65, 65, 65, 65, 65, 65, 65, 65, 65, 65, 65, 65, 66] =
      [95, 95, 65, 65, 65, 65, 65, 65, 65, 65, 65, 65, 65, 65, 65, 66] := by
  refine ⟨?_, ?_⟩
  · have h := (C4_name_normalization
      [95, 95, 84, 69, 88, 84, 0, 0, 0, 0, 0, 0, 0, 0, 0, 0] (by decide)).1
      6 (by decide) (by decide) (by decide)
    exact h.1.trans (by decide)
  · have h := (C4_name_normalization
      [95, 95, 65, 65, 65, 65, 65, 65, 65, 65, 65, 65, 65, 65, 65, 66]
      (by decide)).2 (by decide)
    exact h.1

/-- A concrete remote process with no readable memory and no resolvable
threads, used to instantiate universally quantified statements. -/
def emptyReader : ProcessReader where
  is64Bit := false
  readByte := fun _ => none
  resolveThread := fun _ => none

/-- C2: the Guard lifecycle of both reader instances is one-shot: a fresh
instance is uninitialized; from uninitialized, Initialize always completes
and leaves the instance valid exactly on success and invalid on failure;
Initialize on an instance that is no longer uninitialized (valid or
invalid, which are terminal) aborts; and every accessor of either class
returns its value only in the valid state. -/
theorem C2_guard_lifecycle :
    (ExceptionSnapshotMac.new.guard = GuardState.uninitialized ∧
     MachOImageSegmentReader.new.guard = GuardState.uninitialized) ∧
    (∀ pr t e c f st (s : ExceptionSnapshotMac),
      s.guard = GuardState.uninitialized →
      (ExceptionSnapshotMac.Initialize pr t e c f st s).isSome) ∧
    (∀ pr t e c f st (s s' : ExceptionSnapshotMac) (ok : Bool),
      ExceptionSnapshotMac.Initialize pr t e c f st s = some (s', ok) →
      s'.guard = (if ok then GuardState.valid else GuardState.invalid)) ∧
    (∀ pr t e c f st (s : ExceptionSnapshotMac),
      s.guard ≠ GuardState.uninitialized →
      ExceptionSnapshotMac.Initialize pr t e c f st s = none) ∧
    (∀ pr a info (r : MachOImageSegmentReader),
      r.guard = GuardState.uninitialized →
      (MachOImageSegmentReader.Initialize pr a info r).isSome) ∧
    (∀ pr a info (r r' : MachOImageSegmentReader) (ok : Bool) (diag : Option String),
      MachOImageSegmentReader.Initialize pr a info r = some (r', ok, diag) →
      r'.guard = (if ok then GuardState.valid else GuardState.invalid)) ∧
    (∀ pr a info (r : MachOImageSegmentReader),
      r.guard ≠ GuardState.uninitialized →
      MachOImageSegmentReader.Initialize pr a info r = none) ∧
    (∀ (s : ExceptionSnapshotMac), s.guard ≠ GuardState.valid →
      s.Context = none ∧ s.ThreadID = none ∧ s.Exception = none ∧
      s.ExceptionInfo = none ∧ s.ExceptionAddress = none ∧ s.Codes = none) ∧
    (∀ (r : MachOImageSegmentReader) (nm : List Byte) (i : Nat),
      r.guard ≠ GuardState.valid →
      r.Name = none ∧ r.vmaddr = none ∧ r.vmsize = none ∧ r.fileoff = none ∧
      r.nsects = none ∧ r.GetSectionByName nm = none ∧
      r.GetSectionAtIndex i = none ∧ r.SegmentSlides = none) := by
  refine ⟨⟨rfl, rfl⟩, ?_, ?_, ?_, ?_, ?_, ?_, ?_, ?_⟩
  · intro pr t e c f st s h
    unfold ExceptionSnapshotMac.Initialize
    rw [h]
    cases hres : pr.resolveThread t with
    | none => simp
    | some tid =>
      by_cases hc : c.length < 1
      · simp [hc]
      · cases hctx : decodeCPUContext pr.is64Bit f st with
        | none => simp [hc, hctx]
        | some ctx => simp [hc, hctx]
  · intro pr t e c f st s s' ok h
    unfold ExceptionSnapshotMac.Initialize at h
    cases hg : s.guard <;> rw [hg] at h
    · cases hres : pr.resolveThread t <;> rw [hres] at h
      · simp at h
        simp [← h.1, h.2]
      · by_cases hc : c.length < 1
        · simp [hc] at h
          simp [← h.1, h.2]
        · cases hctx : decodeCPUContext pr.is64Bit f st <;>
            simp [hc, hctx] at h
          · simp [← h.1, h.2]
          · simp [← h.1, h.2]
    · simp at h
    · simp at h
  · intro pr t e c f st s h
    unfold ExceptionSnapshotMac.Initialize
    cases hg : s.guard
    · exact absurd hg h
    · rfl
    · rfl
  · intro pr a info r h
    unfold MachOImageSegmentReader.Initialize
    rw [h]
    cases hcore : MachOImageSegmentReader.InitializeCore pr a info <;> simp
  · intro pr a info r r' ok diag h
    unfold MachOImageSegmentReader.Initialize at h
    cases hg : r.guard <;> rw [hg] at h
    · cases hcore : MachOImageSegmentReader.InitializeCore pr a info <;>
        rw [hcore] at h
      · simp at h
        simp [← h.1, h.2.1]
      · simp at h
        simp [← h.1, h.2.1]
    · simp at h
    · simp at h
  · intro pr a info r h
    unfold MachOImageSegmentReader.Initialize
    cases hg : r.guard
    · exact absurd hg h
    · rfl
    · rfl
  · intro s h
    simp [ExceptionSnapshotMac.Context, ExceptionSnapshotMac.ThreadID,
      ExceptionSnapshotMac.Exception, ExceptionSnapshotMac.ExceptionInfo,
      ExceptionSnapshotMac.ExceptionAddress, ExceptionSnapshotMac.Codes, h]
  · intro r nm i h
    simp [MachOImageSegmentReader.Name, MachOImageSegmentReader.vmaddr,
      MachOImageSegmentReader.vmsize, MachOImageSegmentReader.fileoff,
      MachOImageSegmentReader.nsects, MachOImageSegmentReader.GetSectionByName,
      MachOImageSegmentReader.GetSectionAtIndex,
      MachOImageSegmentReader.SegmentSlides, h]

/-- Witness for C2 at a concrete input: a second Initialize on an already
valid snapshot instance aborts, and a fresh segment reader instance run
against the empty process completes with some outcome. -/
theorem C2_guard_lifecycle_witness :
    ExceptionSnapshotMac.Initialize emptyReader 0 0 [] 0 []
      { ExceptionSnapshotMac.new with guard := GuardState.valid } = none ∧
    (MachOImageSegmentReader.Initialize emptyReader 0 ""
      MachOImageSegmentReader.new).isSome := by
  constructor
  · exact C2_guard_lifecycle.2.2.2.1 emptyReader 0 0 [] 0 []
      { ExceptionSnapshotMac.new with guard := GuardState.valid } (by decide)
  · exact C2_guard_lifecycle.2.2.2.2.1 emptyReader 0 ""
      MachOImageSegmentReader.new (by decide)

/-- Widened exception codes are 64-bit values. -/
theorem toUInt64C_lt (i : Int) : toUInt64C i < 2 ^ 64 := by
  have h1 : (0 : Int) ≤ i % (2 ^ 64 : Int) := Int.emod_nonneg i (by norm_num)
  have h2 : i % (2 ^ 64 : Int) < 2 ^ 64 := Int.emod_lt_of_pos i (by norm_num)
  unfold toUInt64C
  omega

/-- Truncated stores are 32-bit values. -/
theorem toUInt32C_lt (i : Int) : toUInt32C i < 2 ^ 32 := by
  have h1 : (0 : Int) ≤ i % (2 ^ 32 : Int) := Int.emod_nonneg i (by norm_num)
  have h2 : i % (2 ^ 32 : Int) < 2 ^ 32 := Int.emod_lt_of_pos i (by norm_num)
  unfold toUInt32C
  omega

/-- Inversion of a successful `ExceptionSnapshotMac::Initialize`: the
thread resolved, the context decoded, at least one code was supplied, and
the resulting instance is exactly the populated snapshot. -/
theorem exceptionInitialize_ok (pr : ProcessReader) (t : Nat)
    (e : Int) (code : List Int) (f : Nat) (st : List Nat)
    (s s' : ExceptionSnapshotMac)
    (h : ExceptionSnapshotMac.Initialize pr t e code f st s = some (s', true)) :
    ∃ tid ctx, pr.resolveThread t = some tid ∧
      decodeCPUContext pr.is64Bit f st = some ctx ∧
      1 ≤ code.length ∧
      s' = { context_ := ctx
             codes_ := code.map toUInt64C
             thread_id_ := tid
             exception_address_ :=
               if usesInstructionPointer e then ctx.InstructionPointer
               else toUInt64C (code.headD 0)
             exception_ := e
             exception_code_0_ := toUInt32C (code.headD 0)
             guard := GuardState.valid } := by
  unfold ExceptionSnapshotMac.Initialize at h
  cases hg : s.guard <;> rw [hg] at h
  · cases hres : pr.resolveThread t <;> rw [hres] at h
    · simp at h
    · by_cases hc : code.length < 1
      · simp [hc] at h
      · cases hctx : decodeCPUContext pr.is64Bit f st <;>
          simp only [if_neg hc, hctx] at h
        · simp at h
        · have hs := congrArg Prod.fst (Option.some.inj h)
          exact ⟨_, _, rfl, rfl, by omega, hs.symm⟩
  · simp at h
  · simp at h

/-- C1: after a successful Initialize, the faulting address follows the
per-type derivation: the captured instruction pointer of the decoded CPU
context for the documented subset of exception types, and the first
exception code widened to an address for every other type. -/
theorem C1_exception_address (pr : ProcessReader) (t : Nat) (e : Int)
    (code : List Int) (f : Nat) (st : List Nat)
    (s s' : ExceptionSnapshotMac) (ctx : CPUContext)
    (h : ExceptionSnapshotMac.Initialize pr t e code f st s = some (s', true))
    (hctx : decodeCPUContext pr.is64Bit f st = some ctx) :
    s'.ExceptionAddress =
      some (if usesInstructionPointer e then ctx.InstructionPointer
            else toUInt64C (code.headD 0)) := by
  obtain ⟨tid, ctx', _, hctx', _, hs⟩ :=
    exceptionInitialize_ok pr t e code f st s s' h
  rw [hctx] at hctx'
  obtain rfl : ctx = ctx' := Option.some.inj hctx'
  rw [hs]
  rfl

/-- C9: after a successful Initialize with at least one exception code,
Codes() holds exactly one 64-bit value per delivered code, the i-th being
the i-th raw code widened to 64 bits, preserving order and count. -/
theorem C9_codes_widened (pr : ProcessReader) (t : Nat) (e : Int)
    (code : List Int) (f : Nat) (st : List Nat)
    (s s' : ExceptionSnapshotMac)
    (h : ExceptionSnapshotMac.Initialize pr t e code f st s = some (s', true))
    (hc : 1 ≤ code.length) :
    s'.Codes = some (code.map toUInt64C) ∧
    (code.map toUInt64C).length = code.length ∧
    (∀ i : Nat, (code.map toUInt64C)[i]? = code[i]?.map toUInt64C) ∧
    (∀ x ∈ code.map toUInt64C, x < 2 ^ 64) := by
  obtain ⟨tid, ctx, _, _, _, hs⟩ :=
    exceptionInitialize_ok pr t e code f st s s' h
  refine ⟨?_, List.length_map code toUInt64C, ?_, ?_⟩
  · rw [hs]
    rfl
  · intro i
    exact List.getElem?_map toUInt64C code i
  · intro x hx
    obtain ⟨c, _, rfl⟩ := List.mem_map.mp hx
    exact toUInt64C_lt c

/-- C10: the two 32-bit accessors observe only truncations: after a
successful Initialize, Exception() is the recorded exception type reduced
modulo 2^32 and ExceptionInfo() is the first code reduced modulo 2^32, and
every value observable through either accessor is below 2^32. -/
theorem C10_accessors_truncate (pr : ProcessReader) (t : Nat) (e : Int)
    (code : List Int) (f : Nat) (st : List Nat)
    (s s' : ExceptionSnapshotMac)
    (h : ExceptionSnapshotMac.Initialize pr t e code f st s = some (s', true)) :
    s'.Exception = some (toUInt32C e) ∧
    s'.ExceptionInfo = some (toUInt32C (code.headD 0)) ∧
    (∀ v, s'.Exception = some v → v < 2 ^ 32) ∧
    (∀ v, s'.ExceptionInfo = some v → v < 2 ^ 32) := by
  obtain ⟨tid, ctx, _, _, _, hs⟩ :=
    exceptionInitialize_ok pr t e code f st s s' h
  subst hs
  refine ⟨rfl, rfl, ?_, ?_⟩
  · intro v hv
    have : v = toUInt32C e := by
      simpa [ExceptionSnapshotMac.Exception] using hv.symm
    exact this ▸ toUInt32C_lt e
  · intro v hv
    have : v = toUInt32C (code.headD 0) := by
      simpa [ExceptionSnapshotMac.ExceptionInfo] using hv.symm
    exact this ▸ toUInt32C_lt (code.headD 0)

/-- A concrete remote process for concrete instantiations: 32-bit target
whose threads all resolve to thread id 7. -/
def sampleThreadReader : ProcessReader where
  is64Bit := false
  readByte := fun _ => none
  resolveThread := fun _ => some 7

/-- Concrete `x86_thread_state32_t` words whose `eip` register (index 10)
is 4660. -/
def sampleState32 : List Nat :=
  [0, 1, 2, 3, 4, 5, 6, 7, 8, 9, 4660, 11, 12, 13, 14, 15]

/-- The snapshot produced by a successful concrete Initialize carrying an
`EXC_BAD_INSTRUCTION` exception with codes `[3, 4]`. -/
def sampleSnap : ExceptionSnapshotMac :=
  ((ExceptionSnapshotMac.Initialize sampleThreadReader 5 EXC_BAD_INSTRUCTION
      [3, 4] x86ThreadState32Flavor sampleState32
      ExceptionSnapshotMac.new).getD (ExceptionSnapshotMac.new, false)).1

/-- Witness for C1 at a concrete input: `EXC_BAD_INSTRUCTION` is in the
instruction-pointer subset, so the faulting address is the captured
`eip` = 4660, not the first code 3. -/
theorem C1_exception_address_witness : sampleSnap.ExceptionAddress = some 4660 := by
  have h := C1_exception_address sampleThreadReader 5 EXC_BAD_INSTRUCTION
    [3, 4] x86ThreadState32Flavor sampleState32 ExceptionSnapshotMac.new
    sampleSnap (CPUContext.x86 [0, 1, 2, 3, 4, 5, 6, 7, 8, 9, 4660, 11, 12, 13, 14, 15])
    (by decide) (by decide)
  exact h.trans (by decide)

/-- Witness for C9 at a concrete input: the delivered codes `[3, 4]` are
observable through Codes() in order, widened to 64 bits. -/
theorem C9_codes_widened_witness : sampleSnap.Codes = some [3, 4] := by
  have h := C9_codes_widened sampleThreadReader 5 EXC_BAD_INSTRUCTION
    [3, 4] x86ThreadState32Flavor sampleState32 ExceptionSnapshotMac.new
    sampleSnap (by decide) (by decide)
  exact h.1.trans (by decide)

/-- Witness for C10 at a concrete input: Exception() observes the type 2
and ExceptionInfo() the first code 3, both as 32-bit values. -/
theorem C10_accessors_truncate_witness :
    sampleSnap.Exception = some 2 ∧ sampleSnap.ExceptionInfo = some 3 := by
  have h := C10_accessors_truncate sampleThreadReader 5 EXC_BAD_INSTRUCTION
    [3, 4] x86ThreadState32Flavor sampleState32 ExceptionSnapshotMac.new
    sampleSnap (by decide)
  exact ⟨h.1.trans (by decide), h.2.1.trans (by decide)⟩

/-- Sections are read in file order and their number is exactly the
requested count. -/
theorem readSections_length (m : ProcessReader) :
    ∀ (n : Nat) (addr : Nat) (sections : List MachOSection),
    readSections m addr n = some sections → sections.length = n
  | 0, addr, sections, h => by
    simp [readSections] at h
    simp [← h]
  | n + 1, addr, sections, h => by
    unfold readSections at h
    cases hs : readSection m addr <;> rw [hs] at h
    · simp at h
    · cases hrest : readSections m (addr + sectionRecordSize m.is64Bit) n <;>
        rw [hrest] at h
      · simp at h
      · have := readSections_length m n _ _ hrest
        simp at h
        simp [← h, this]

/-- Inversion of a successful `MachOImageSegmentReader::InitializeCore`:
the header was read and decoded with the target-bitness layout, the
declared size equation holds, and the sections were read in file order. -/
theorem MachOImageSegmentReader.InitializeCore_ok (pr : ProcessReader)
    (a : Nat) (info : String) (sc : SegmentCommand)
    (sections : List MachOSection)
    (h : MachOImageSegmentReader.InitializeCore pr a info = .ok (sc, sections)) :
    ∃ b, pr.readBytes a (segmentCommandSize pr.is64Bit) = some b ∧
      sc = decodeSegmentCommand pr.is64Bit b ∧
      sc.cmdsize =
        segmentCommandSize pr.is64Bit + sc.nsects * sectionRecordSize pr.is64Bit ∧
      readSections pr (a + segmentCommandSize pr.is64Bit) sc.nsects =
        some sections := by
  unfold MachOImageSegmentReader.InitializeCore at h
  cases hb : pr.readBytes a (segmentCommandSize pr.is64Bit) <;> simp only [hb] at h
  · exact Except.noConfusion h
  · rename_i b
    by_cases hsz : (decodeSegmentCommand pr.is64Bit b).cmdsize =
        segmentCommandSize pr.is64Bit +
          (decodeSegmentCommand pr.is64Bit b).nsects * sectionRecordSize pr.is64Bit
    · rw [if_neg (not_not_intro hsz)] at h
      cases hss : readSections pr (a + segmentCommandSize pr.is64Bit)
          (decodeSegmentCommand pr.is64Bit b).nsects <;> rw [hss] at h
      · exact Except.noConfusion h
      · rename_i sections'
        have h2 := Except.ok.inj h
        have hsc : sc = decodeSegmentCommand pr.is64Bit b :=
          (congrArg Prod.fst h2).symm
        have hsec : sections = sections' := (congrArg Prod.snd h2).symm
        subst hsc
        subst hsec
        exact ⟨b, rfl, rfl, hsz, hss⟩
    · rw [if_pos hsz] at h
      exact Except.noConfusion h

/-- Inversion of a successful `MachOImageSegmentReader::Initialize`: the
core decoding succeeded and the instance is exactly the populated,
valid reader. -/
theorem segmentInitialize_ok (pr : ProcessReader) (a : Nat)
    (info : String) (r r' : MachOImageSegmentReader) (diag : Option String)
    (h : MachOImageSegmentReader.Initialize pr a info r = some (r', true, diag)) :
    ∃ sc sections,
      MachOImageSegmentReader.InitializeCore pr a info = .ok (sc, sections) ∧
      diag = none ∧
      r' = { segment_command := sc, sections := sections
             section_map := buildSectionMap sections
             guard := GuardState.valid } := by
  unfold MachOImageSegmentReader.Initialize at h
  cases hg : r.guard <;> rw [hg] at h
  · cases hcore : MachOImageSegmentReader.InitializeCore pr a info <;>
      simp only [hcore] at h
    · exact absurd (congrArg (fun p => p.2.1) (Option.some.inj h)) (by simp)
    · rename_i v
      obtain ⟨sc, sections⟩ := v
      have h2 := Option.some.inj h
      exact ⟨sc, sections, rfl, (congrArg (fun p => p.2.2) h2).symm,
        (congrArg Prod.fst h2).symm⟩
  · exact Option.noConfusion h
  · exact Option.noConfusion h

/-- C6: after a successful Initialize reporting `n` sections,
GetSectionAtIndex returns the i-th section in file order for every
`i < n` (in particular for `n - 1` when `n > 0`), and aborts (models as
`none`) for every `i ≥ n`. -/
theorem C6_section_at_index (pr : ProcessReader) (a : Nat) (info : String)
    (r r' : MachOImageSegmentReader) (diag : Option String) (n : Nat)
    (h : MachOImageSegmentReader.Initialize pr a info r = some (r', true, diag))
    (hn : r'.nsects = some n) :
    r'.sections.length = n ∧
    (∀ i, i < n →
      ∃ sec, r'.GetSectionAtIndex i = some sec ∧ r'.sections[i]? = some sec) ∧
    (0 < n → (r'.GetSectionAtIndex (n - 1)).isSome) ∧
    (∀ i, n ≤ i → r'.GetSectionAtIndex i = none) := by
  obtain ⟨sc, sections, hcore, _, hr'⟩ :=
    segmentInitialize_ok pr a info r r' diag h
  obtain ⟨b, _, _, _, hss⟩ :=
    MachOImageSegmentReader.InitializeCore_ok pr a info sc sections hcore
  have hlen : sections.length = sc.nsects :=
    readSections_length pr sc.nsects _ sections hss
  subst hr'
  have hnn : n = sc.nsects := by
    simpa [MachOImageSegmentReader.nsects] using hn.symm
  have hgets : ∀ i : Nat,
      MachOImageSegmentReader.GetSectionAtIndex
        { segment_command := sc, sections := sections
          section_map := buildSectionMap sections
          guard := GuardState.valid } i = sections[i]? := by
    intro i
    rfl
  refine ⟨by simpa using hlen.trans hnn.symm, ?_, ?_, ?_⟩
  · intro i hi
    have hilen : i < sections.length := by omega
    exact ⟨sections[i], by rw [hgets]; exact List.getElem?_eq_getElem hilen,
      List.getElem?_eq_getElem hilen⟩
  · intro hpos
    have hilen : n - 1 < sections.length := by omega
    rw [hgets]
    simp [List.getElem?_eq_getElem hilen]
  · intro i hi
    rw [hgets]
    apply List.getElem?_eq_none
    omega

/-- C7: Initialize rejects the load command with a diagnostic carrying the
supplied label whenever the declared total size does not equal the fixed
header size plus `nsects` times the section record size for the detected
bitness, leaving the instance invalid; it proceeds to read sections only
when the equation holds. -/
theorem C7_cmdsize_validation (pr : ProcessReader) (a : Nat) (info : String) :
    (∀ b, pr.readBytes a (segmentCommandSize pr.is64Bit) = some b →
      (decodeSegmentCommand pr.is64Bit b).cmdsize ≠
        segmentCommandSize pr.is64Bit +
          (decodeSegmentCommand pr.is64Bit b).nsects *
            sectionRecordSize pr.is64Bit →
      MachOImageSegmentReader.InitializeCore pr a info =
        .error (info ++ ": incorrect segment load command size") ∧
      (∀ r : MachOImageSegmentReader, r.guard = GuardState.uninitialized →
        MachOImageSegmentReader.Initialize pr a info r =
          some ({ r with guard := GuardState.invalid }, false,
            some (info ++ ": incorrect segment load command size")))) ∧
    (∀ sc sections,
      MachOImageSegmentReader.InitializeCore pr a info = .ok (sc, sections) →
      sc.cmdsize =
        segmentCommandSize pr.is64Bit +
          sc.nsects * sectionRecordSize pr.is64Bit ∧
      readSections pr (a + segmentCommandSize pr.is64Bit) sc.nsects =
        some sections) := by
  constructor
  · intro b hb hbad
    have hcore : MachOImageSegmentReader.InitializeCore pr a info =
        .error (info ++ ": incorrect segment load command size") := by
      unfold MachOImageSegmentReader.InitializeCore
      rw [hb]
      simp only [if_pos hbad]
    refine ⟨hcore, ?_⟩
    intro r hr
    unfold MachOImageSegmentReader.Initialize
    rw [hr, hcore]
  · intro sc sections hok
    obtain ⟨b, _, _, hsz, hss⟩ :=
      MachOImageSegmentReader.InitializeCore_ok pr a info sc sections hok
    exact ⟨hsz, hss⟩

/-- C8: after a successful Initialize, SegmentSlides() is false exactly
when the segment name is the reserved zero-page segment name
`__PAGEZERO`, and true for every other segment name. -/
theorem C8_segment_slides (pr : ProcessReader) (a : Nat) (info : String)
    (r r' : MachOImageSegmentReader) (diag : Option String)
    (h : MachOImageSegmentReader.Initialize pr a info r = some (r', true, diag)) :
    (r'.SegmentSlides = some false ↔
      r'.Name = some MachOImageSegmentReader.pagezeroSegmentName) ∧
    (∀ nm, r'.Name = some nm →
      nm ≠ MachOImageSegmentReader.pagezeroSegmentName →
      r'.SegmentSlides = some true) := by
  obtain ⟨sc, sections, _, _, hr'⟩ :=
    segmentInitialize_ok pr a info r r' diag h
  subst hr'
  have hname : MachOImageSegmentReader.Name
      { segment_command := sc, sections := sections
        section_map := buildSectionMap sections
        guard := GuardState.valid } = some (SegmentNameString sc.segname) := rfl
  have hslides : MachOImageSegmentReader.SegmentSlides
      { segment_command := sc, sections := sections
        section_map := buildSectionMap sections
        guard := GuardState.valid } =
      some (decide (SegmentNameString sc.segname ≠
        MachOImageSegmentReader.pagezeroSegmentName)) := by
    simp [MachOImageSegmentReader.SegmentSlides]
  rw [hname, hslides]
  by_cases hz : SegmentNameString sc.segname =
      MachOImageSegmentReader.pagezeroSegmentName
  · simp [hz]
  · constructor
    · simp [hz]
    · intro nm hnm _
      simp [hz]

/-- Lookup in the section map built from index `k` onward finds the first
index, in file order, whose normalized section name matches. -/
theorem buildSectionMapFrom_lookup (nm : List Byte) :
    ∀ (sections : List MachOSection) (k : Nat),
    (buildSectionMapFrom k sections).lookup nm =
      sections.findIdx? (fun sec => SectionNameString sec.sectname == nm) k
  | [], k => by simp [buildSectionMapFrom, List.findIdx?]
  | s :: rest, k => by
    by_cases hs : SectionNameString s.sectname = nm
    · rw [buildSectionMapFrom, List.findIdx?_cons,
        if_pos (by simp [hs]), List.lookup]
      simp [hs]
    · rw [buildSectionMapFrom, List.findIdx?_cons,
        if_neg (by simp [hs]), List.lookup]
      have hne : (nm == SectionNameString s.sectname) = false :=
        beq_eq_false_iff_ne.mpr (Ne.symm hs)
      rw [hne]
      exact buildSectionMapFrom_lookup nm rest (k + 1)

/-- Helper: findIdx? starting at `k` returns `i + k` when index `i` holds
the first element satisfying the predicate. -/
theorem findIdx?_eq_of_first {α : Type} (p : α → Bool) :
    ∀ (l : List α) (i k : Nat) (x : α),
    l[i]? = some x → p x = true →
    (∀ j y, j < i → l[j]? = some y → p y = false) →
    l.findIdx? p k = some (i + k)
  | [], i, k, x, hx, _, _ => by simp at hx
  | a :: t, 0, k, x, hx, hpx, _ => by
    simp at hx
    rw [List.findIdx?_cons, if_pos (hx ▸ hpx)]
    simp
  | a :: t, i + 1, k, x, hx, hpx, hbef => by
    have ha : p a = false := hbef 0 a (Nat.succ_pos i) (by simp)
    rw [List.findIdx?_cons, if_neg (by simp [ha])]
    have ih := findIdx?_eq_of_first p t i (k + 1) x (by simpa using hx) hpx
      (fun j y hj hy => hbef (j + 1) y (by omega) (by simpa using hy))
    rw [ih]
    congr 1
    omega

/-- C5: after a successful Initialize, GetSectionByName returns the
not-found sentinel exactly when no section has the queried normalized
name, and otherwise returns the first section, in file order, bearing the
name — the same section GetSectionAtIndex returns at that position. -/
theorem C5_section_by_name (pr : ProcessReader) (a : Nat) (info : String)
    (r r' : MachOImageSegmentReader) (diag : Option String) (nm : List Byte)
    (h : MachOImageSegmentReader.Initialize pr a info r = some (r', true, diag)) :
    (r'.GetSectionByName nm = some none ↔
      ∀ sec ∈ r'.sections, SectionNameString sec.sectname ≠ nm) ∧
    (∀ i sec, r'.sections[i]? = some sec → SectionNameString sec.sectname = nm →
      (∀ j sec', j < i → r'.sections[j]? = some sec' →
        SectionNameString sec'.sectname ≠ nm) →
      r'.GetSectionByName nm = some (r'.GetSectionAtIndex i) ∧
      r'.GetSectionAtIndex i = some sec) := by
  obtain ⟨sc, sections, _, _, hr'⟩ :=
    segmentInitialize_ok pr a info r r' diag h
  subst hr'
  have hlookup : (buildSectionMap sections).lookup nm =
      sections.findIdx? (fun sec => SectionNameString sec.sectname == nm) 0 :=
    buildSectionMapFrom_lookup nm sections 0
  have hbyname : MachOImageSegmentReader.GetSectionByName
      { segment_command := sc, sections := sections
        section_map := buildSectionMap sections
        guard := GuardState.valid } nm =
      some (((buildSectionMap sections).lookup nm).bind
        (fun i => sections[i]?)) := rfl
  have hat : ∀ i : Nat, MachOImageSegmentReader.GetSectionAtIndex
      { segment_command := sc, sections := sections
        section_map := buildSectionMap sections
        guard := GuardState.valid } i = sections[i]? := fun _ => rfl
  constructor
  · rw [hbyname, hlookup]
    constructor
    · intro hnone sec hsec hname
      cases hidx : sections.findIdx?
          (fun sec => SectionNameString sec.sectname == nm) 0 with
      | none =>
        rw [List.findIdx?_eq_none_iff] at hidx
        have := hidx sec hsec
        simp [hname] at this
      | some i =>
        rw [hidx] at hnone
        have hi : i < sections.length :=
          (List.findIdx?_eq_some_iff_findIdx_eq.mp hidx).1
        simp [List.getElem?_eq_getElem hi] at hnone
    · intro habs
      have hidx : sections.findIdx?
          (fun sec => SectionNameString sec.sectname == nm) 0 = none := by
        rw [List.findIdx?_eq_none_iff]
        intro x hx
        simpa using habs x hx
      rw [hidx]
      rfl
  · intro i sec hsec hname hfirst
    have hidx : sections.findIdx?
        (fun sec => SectionNameString sec.sectname == nm) 0 = some i := by
      have := findIdx?_eq_of_first
        (fun sec => SectionNameString sec.sectname == nm) sections i 0 sec
        hsec (by simp [hname])
        (fun j y hj hy => by simpa using hfirst j y hj hy)
      simpa using this
    refine ⟨?_, (hat i).trans hsec⟩
    rw [hbyname, hlookup, hidx, hat i]
    rfl

/-- Little-endian encodings have exactly the requested width. -/
theorem leBytes_length : ∀ (w v : Nat), (leBytes w v).length = w
  | 0, _ => rfl
  | w + 1, v => by simp [leBytes, leBytes_length w]

/-- Round trip: the value of a little-endian encoding is the encoded
value, for values that fit the width. -/
theorem leValue_leBytes : ∀ (w v : Nat), v < 256 ^ w → leValue (leBytes w v) = v
  | 0, v, h => by
    simp at h
    simp [leBytes, leValue, h]
  | w + 1, v, h => by
    have hdiv : v / 256 < 256 ^ w := by
      rw [Nat.div_lt_iff_lt_mul (by norm_num)]
      rw [Nat.pow_succ] at h
      omega
    have ih := leValue_leBytes w (v / 256) hdiv
    simp [leBytes, leValue, ih]
    omega

/-- Pad or truncate a raw name to the fixed 16-byte field of the ABI
records. -/
def padName (name : List Byte) : List Byte :=
  (name ++ List.replicate 16 0).take 16

/-- Names already 16 bytes long are encoded unchanged. -/
theorem padName_eq (name : List Byte) (h : name.length = 16) :
    padName name = name := by
  unfold padName
  exact List.take_left' h

/-- Padded names are always 16 bytes. -/
theorem padName_length (name : List Byte) : (padName name).length = 16 := by
  simp [padName]

/-- Extraction of the first field of a record suffix. -/
theorem recField_first (x rest : List Byte) (w : Nat) (hx : x.length = w) :
    recField (x ++ rest) 0 w = leValue x := by
  unfold recField
  rw [List.drop_zero, List.take_left' hx]

/-- Extraction of the final field of a record. -/
theorem recField_all (x : List Byte) (w : Nat) (hx : x.length = w) :
    recField x 0 w = leValue x := by
  unfold recField
  rw [List.drop_zero, List.take_of_length_le (le_of_eq hx)]

/-- Stepping an extraction offset past one leading field. -/
theorem recField_step (x rest : List Byte) (off off' w : Nat)
    (hoff : off = x.length + off') :
    recField (x ++ rest) off w = recField rest off' w := by
  unfold recField
  rw [hoff, List.drop_append off']

/-- Extraction of a leading 16-byte name field. -/
theorem recName_first (x rest : List Byte) (hx : x.length = 16) :
    recName (x ++ rest) 0 = x := by
  unfold recName
  rw [List.drop_zero, List.take_left' hx]

/-- Stepping a name extraction offset past one leading field. -/
theorem recName_step (x rest : List Byte) (off off' : Nat)
    (hoff : off = x.length + off') :
    recName (x ++ rest) off = recName rest off' := by
  unfold recName
  rw [hoff, List.drop_append off']

/-- A segment command whose numeric fields fit 32 bits and whose raw name
is the full 16-byte field, so that both ABI record layouts can carry it. -/
def SegmentCommand.Fits32 (sc : SegmentCommand) : Prop :=
  sc.cmd < 256 ^ 4 ∧ sc.cmdsize < 256 ^ 4 ∧ sc.segname.length = 16 ∧
  sc.vmaddr < 256 ^ 4 ∧ sc.vmsize < 256 ^ 4 ∧ sc.fileoff < 256 ^ 4 ∧
  sc.filesize < 256 ^ 4 ∧ sc.maxprot < 256 ^ 4 ∧ sc.initprot < 256 ^ 4 ∧
  sc.nsects < 256 ^ 4 ∧ sc.flags < 256 ^ 4

/-- A section whose numeric fields fit 32 bits and whose raw names are
full 16-byte fields, so that both ABI record layouts can carry it. -/
def MachOSection.Fits32 (s : MachOSection) : Prop :=
  s.sectname.length = 16 ∧ s.segname.length = 16 ∧ s.addr < 256 ^ 4 ∧
  s.size < 256 ^ 4 ∧ s.offset < 256 ^ 4 ∧ s.align < 256 ^ 4 ∧
  s.reloff < 256 ^ 4 ∧ s.nreloc < 256 ^ 4 ∧ s.flags < 256 ^ 4 ∧
  s.reserved1 < 256 ^ 4 ∧ s.reserved2 < 256 ^ 4

/-- Fits32 for segment commands is checkable by evaluation. -/
instance (sc : SegmentCommand) : Decidable sc.Fits32 := by
  unfold SegmentCommand.Fits32
  infer_instance

/-- Fits32 for sections is checkable by evaluation. -/
instance (s : MachOSection) : Decidable s.Fits32 := by
  unfold MachOSection.Fits32
  infer_instance

/-- ABI encoding of a normalized segment command as a 32-bit
`segment_command` record. -/
def encodeSegmentCommand32 (sc : SegmentCommand) : List Byte :=
  leBytes 4 sc.cmd ++ (leBytes 4 sc.cmdsize ++ (padName sc.segname ++
  (leBytes 4 sc.vmaddr ++ (leBytes 4 sc.vmsize ++ (leBytes 4 sc.fileoff ++
  (leBytes 4 sc.filesize ++ (leBytes 4 sc.maxprot ++ (leBytes 4 sc.initprot
  ++ (leBytes 4 sc.nsects ++ (leBytes 4 sc.flags))))))))))

/-- ABI encoding of a normalized segment command as a 64-bit
`segment_command_64` record. -/
def encodeSegmentCommand64 (sc : SegmentCommand) : List Byte :=
  leBytes 4 sc.cmd ++ (leBytes 4 sc.cmdsize ++ (padName sc.segname ++
  (leBytes 8 sc.vmaddr ++ (leBytes 8 sc.vmsize ++ (leBytes 8 sc.fileoff ++
  (leBytes 8 sc.filesize ++ (leBytes 4 sc.maxprot ++ (leBytes 4 sc.initprot
  ++ (leBytes 4 sc.nsects ++ (leBytes 4 sc.flags))))))))))

/-- ABI encoding of a normalized section as a 32-bit `section` record. -/
def encodeSection32 (s : MachOSection) : List Byte :=
  padName s.sectname ++ (padName s.segname ++ (leBytes 4 s.addr ++ (leBytes
  4 s.size ++ (leBytes 4 s.offset ++ (leBytes 4 s.align ++ (leBytes 4
  s.reloff ++ (leBytes 4 s.nreloc ++ (leBytes 4 s.flags ++ (leBytes 4
  s.reserved1 ++ (leBytes 4 s.reserved2))))))))))

/-- ABI encoding of a normalized section as a 64-bit `section_64` record,
with a zero `reserved3` trailing field. -/
def encodeSection64 (s : MachOSection) : List Byte :=
  padName s.sectname ++ (padName s.segname ++ (leBytes 8 s.addr ++ (leBytes
  8 s.size ++ (leBytes 4 s.offset ++ (leBytes 4 s.align ++ (leBytes 4
  s.reloff ++ (leBytes 4 s.nreloc ++ (leBytes 4 s.flags ++ (leBytes 4
  s.reserved1 ++ (leBytes 4 s.reserved2 ++ (leBytes 4 0)))))))))))

/-- Encoded 32-bit segment commands have the ABI size 56. -/
theorem encodeSegmentCommand32_length (sc : SegmentCommand) :
    (encodeSegmentCommand32 sc).length = 56 := by
  simp [encodeSegmentCommand32, leBytes_length, padName_length]

/-- Encoded 64-bit segment commands have the ABI size 72. -/
theorem encodeSegmentCommand64_length (sc : SegmentCommand) :
    (encodeSegmentCommand64 sc).length = 72 := by
  simp [encodeSegmentCommand64, leBytes_length, padName_length]

/-- Encoded 32-bit sections have the ABI size 68. -/
theorem encodeSection32_length (s : MachOSection) :
    (encodeSection32 s).length = 68 := by
  simp [encodeSection32, leBytes_length, padName_length]

/-- Encoded 64-bit sections have the ABI size 80. -/
theorem encodeSection64_length (s : MachOSection) :
    (encodeSection64 s).length = 80 := by
  simp [encodeSection64, leBytes_length, padName_length]

/-- Unfolding of the 32-bit segment command decode. -/
theorem decodeSegmentCommand_false (b : List Byte) :
    decodeSegmentCommand false b =
    { cmd := recField b 0 4, cmdsize := recField b 4 4, segname := recName b 8
      vmaddr := recField b 24 4, vmsize := recField b 28 4
      fileoff := recField b 32 4, filesize := recField b 36 4
      maxprot := recField b 40 4, initprot := recField b 44 4
      nsects := recField b 48 4, flags := recField b 52 4 } := rfl

/-- Unfolding of the 64-bit segment command decode. -/
theorem decodeSegmentCommand_true (b : List Byte) :
    decodeSegmentCommand true b =
    { cmd := recField b 0 4, cmdsize := recField b 4 4, segname := recName b 8
      vmaddr := recField b 24 8, vmsize := recField b 32 8
      fileoff := recField b 40 8, filesize := recField b 48 8
      maxprot := recField b 56 4, initprot := recField b 60 4
      nsects := recField b 64 4, flags := recField b 68 4 } := rfl

/-- Unfolding of the 32-bit section decode. -/
theorem decodeSection_false (b : List Byte) :
    decodeSection false b =
    { sectname := recName b 0, segname := recName b 16
      addr := recField b 32 4, size := recField b 36 4
      offset := recField b 40 4, align := recField b 44 4
      reloff := recField b 48 4, nreloc := recField b 52 4
      flags := recField b 56 4, reserved1 := recField b 60 4
      reserved2 := recField b 64 4 } := rfl

/-- Unfolding of the 64-bit section decode. -/
theorem decodeSection_true (b : List Byte) :
    decodeSection true b =
    { sectname := recName b 0, segname := recName b 16
      addr := recField b 32 8, size := recField b 40 8
      offset := recField b 48 4, align := recField b 52 4
      reloff := recField b 56 4, nreloc := recField b 60 4
      flags := recField b 64 4, reserved1 := recField b 68 4
      reserved2 := recField b 72 4 } := rfl

/-- Decoding the 32-bit ABI record of a segment command reproduces it. -/
theorem decodeSegmentCommand_encode32 (s0 : SegmentCommand) (h : s0.Fits32) :
    decodeSegmentCommand false (encodeSegmentCommand32 s0) = s0 := by
  obtain ⟨cmd, cmdsize, segname, vmaddr, vmsize, fileoff, filesize, maxprot, initprot, nsects, flags⟩ := s0
  simp only [SegmentCommand.Fits32] at h
  obtain ⟨h1, h2, hn, h3, h4, h5, h6, h7, h8, h9, h10⟩ := h
  simp only [encodeSegmentCommand32, decodeSegmentCommand_false,
    SegmentCommand.mk.injEq]
  rw [padName_eq _ hn]
  refine ⟨?_, ?_, ?_, ?_, ?_, ?_, ?_, ?_, ?_, ?_, ?_⟩
  · rw [recField_first _ _ _ (leBytes_length 4 cmd),
      leValue_leBytes 4 cmd h1]
  · rw [recField_step _ _ 4 0 4 (by simp [leBytes_length, hn]),
      recField_first _ _ _ (leBytes_length 4 cmdsize),
      leValue_leBytes 4 cmdsize h2]
  · rw [recName_step _ _ 8 4 (by simp [leBytes_length, hn]),
      recName_step _ _ 4 0 (by simp [leBytes_length, hn]),
      recName_first _ _ hn]
  · rw [recField_step _ _ 24 20 4 (by simp [leBytes_length, hn]),
      recField_step _ _ 20 16 4 (by simp [leBytes_length, hn]),
      recField_step _ _ 16 0 4 (by simp [leBytes_length, hn]),
      recField_first _ _ _ (leBytes_length 4 vmaddr),
      leValue_leBytes 4 vmaddr h3]
  · rw [recField_step _ _ 28 24 4 (by simp [leBytes_length, hn]),
      recField_step _ _ 24 20 4 (by simp [leBytes_length, hn]),
      recField_step _ _ 20 4 4 (by simp [leBytes_length, hn]),
      recField_step _ _ 4 0 4 (by simp [leBytes_length, hn]),
      recField_first _ _ _ (leBytes_length 4 vmsize),
      leValue_leBytes 4 vmsize h4]
  · rw [recField_step _ _ 32 28 4 (by simp [leBytes_length, hn]),
      recField_step _ _ 28 24 4 (by simp [leBytes_length, hn]),
      recField_step _ _ 24 8 4 (by simp [leBytes_length, hn]),
      recField_step _ _ 8 4 4 (by simp [leBytes_length, hn]),
      recField_step _ _ 4 0 4 (by simp [leBytes_length, hn]),
      recField_first _ _ _ (leBytes_length 4 fileoff),
      leValue_leBytes 4 fileoff h5]
  · rw [recField_step _ _ 36 32 4 (by simp [leBytes_length, hn]),
      recField_step _ _ 32 28 4 (by simp [leBytes_length, hn]),
      recField_step _ _ 28 12 4 (by simp [leBytes_length, hn]),
      recField_step _ _ 12 8 4 (by simp [leBytes_length, hn]),
      recField_step _ _ 8 4 4 (by simp [leBytes_length, hn]),
      recField_step _ _ 4 0 4 (by simp [leBytes_length, hn]),
      recField_first _ _ _ (leBytes_length 4 filesize),
      leValue_leBytes 4 filesize h6]
  · rw [recField_step _ _ 40 36 4 (by simp [leBytes_length, hn]),
      recField_step _ _ 36 32 4 (by simp [leBytes_length, hn]),
      recField_step _ _ 32 16 4 (by simp [leBytes_length, hn]),
      recField_step _ _ 16 12 4 (by simp [leBytes_length, hn]),
      recField_step _ _ 12 8 4 (by simp [leBytes_length, hn]),
      recField_step _ _ 8 4 4 (by simp [leBytes_length, hn]),
      recField_step _ _ 4 0 4 (by simp [leBytes_length, hn]),
      recField_first _ _ _ (leBytes_length 4 maxprot),
      leValue_leBytes 4 maxprot h7]
  · rw [recField_step _ _ 44 40 4 (by simp [leBytes_length, hn]),
      recField_step _ _ 40 36 4 (by simp [leBytes_length, hn]),
      recField_step _ _ 36 20 4 (by simp [leBytes_length, hn]),
      recField_step _ _ 20 16 4 (by simp [leBytes_length, hn]),
      recField_step _ _ 16 12 4 (by simp [leBytes_length, hn]),
      recField_step _ _ 12 8 4 (by simp [leBytes_length, hn]),
      recField_step _ _ 8 4 4 (by simp [leBytes_length, hn]),
      recField_step _ _ 4 0 4 (by simp [leBytes_length, hn]),
      recField_first _ _ _ (leBytes_length 4 initprot),
      leValue_leBytes 4 initprot h8]
  · rw [recField_step _ _ 48 44 4 (by simp [leBytes_length, hn]),
      recField_step _ _ 44 40 4 (by simp [leBytes_length, hn]),
      recField_step _ _ 40 24 4 (by simp [leBytes_length, hn]),
      recField_step _ _ 24 20 4 (by simp [leBytes_length, hn]),
      recField_step _ _ 20 16 4 (by simp [leBytes_length, hn]),
      recField_step _ _ 16 12 4 (by simp [leBytes_length, hn]),
      recField_step _ _ 12 8 4 (by simp [leBytes_length, hn]),
      recField_step _ _ 8 4 4 (by simp [leBytes_length, hn]),
      recField_step _ _ 4 0 4 (by simp [leBytes_length, hn]),
      recField_first _ _ _ (leBytes_length 4 nsects),
      leValue_leBytes 4 nsects h9]
  · rw [recField_step _ _ 52 48 4 (by simp [leBytes_length, hn]),
      recField_step _ _ 48 44 4 (by simp [leBytes_length, hn]),
      recField_step _ _ 44 28 4 (by simp [leBytes_length, hn]),
      recField_step _ _ 28 24 4 (by simp [leBytes_length, hn]),
      recField_step _ _ 24 20 4 (by simp [leBytes_length, hn]),
      recField_step _ _ 20 16 4 (by simp [leBytes_length, hn]),
      recField_step _ _ 16 12 4 (by simp [leBytes_length, hn]),
      recField_step _ _ 12 8 4 (by simp [leBytes_length, hn]),
      recField_step _ _ 8 4 4 (by simp [leBytes_length, hn]),
      recField_step _ _ 4 0 4 (by simp [leBytes_length, hn]),
      recField_all _ _ (leBytes_length 4 flags),
      leValue_leBytes 4 flags h10]

/-- Decoding the 64-bit ABI record of a segment command reproduces it. -/
theorem decodeSegmentCommand_encode64 (s0 : SegmentCommand) (h : s0.Fits32) :
    decodeSegmentCommand true (encodeSegmentCommand64 s0) = s0 := by
  obtain ⟨cmd, cmdsize, segname, vmaddr, vmsize, fileoff, filesize, maxprot, initprot, nsects, flags⟩ := s0
  simp only [SegmentCommand.Fits32] at h
  obtain ⟨h1, h2, hn, h3, h4, h5, h6, h7, h8, h9, h10⟩ := h
  simp only [encodeSegmentCommand64, decodeSegmentCommand_true,
    SegmentCommand.mk.injEq]
  rw [padName_eq _ hn]
  refine ⟨?_, ?_, ?_, ?_, ?_, ?_, ?_, ?_, ?_, ?_, ?_⟩
  · rw [recField_first _ _ _ (leBytes_length 4 cmd),
      leValue_leBytes 4 cmd h1]
  · rw [recField_step _ _ 4 0 4 (by simp [leBytes_length, hn]),
      recField_first _ _ _ (leBytes_length 4 cmdsize),
      leValue_leBytes 4 cmdsize h2]
  · rw [recName_step _ _ 8 4 (by simp [leBytes_length, hn]),
      recName_step _ _ 4 0 (by simp [leBytes_length, hn]),
      recName_first _ _ hn]
  · rw [recField_step _ _ 24 20 8 (by simp [leBytes_length, hn]),
      recField_step _ _ 20 16 8 (by simp [leBytes_length, hn]),
      recField_step _ _ 16 0 8 (by simp [leBytes_length, hn]),
      recField_first _ _ _ (leBytes_length 8 vmaddr),
      leValue_leBytes 8 vmaddr (lt_of_lt_of_le h3 (by norm_num))]
  · rw [recField_step _ _ 32 28 8 (by simp [leBytes_length, hn]),
      recField_step _ _ 28 24 8 (by simp [leBytes_length, hn]),
      recField_step _ _ 24 8 8 (by simp [leBytes_length, hn]),
      recField_step _ _ 8 0 8 (by simp [leBytes_length, hn]),
      recField_first _ _ _ (leBytes_length 8 vmsize),
      leValue_leBytes 8 vmsize (lt_of_lt_of_le h4 (by norm_num))]
  · rw [recField_step _ _ 40 36 8 (by simp [leBytes_length, hn]),
      recField_step _ _ 36 32 8 (by simp [leBytes_length, hn]),
      recField_step _ _ 32 16 8 (by simp [leBytes_length, hn]),
      recField_step _ _ 16 8 8 (by simp [leBytes_length, hn]),
      recField_step _ _ 8 0 8 (by simp [leBytes_length, hn]),
      recField_first _ _ _ (leBytes_length 8 fileoff),
      leValue_leBytes 8 fileoff (lt_of_lt_of_le h5 (by norm_num))]
  · rw [recField_step _ _ 48 44 8 (by simp [leBytes_length, hn]),
      recField_step _ _ 44 40 8 (by simp [leBytes_length, hn]),
      recField_step _ _ 40 24 8 (by simp [leBytes_length, hn]),
      recField_step _ _ 24 16 8 (by simp [leBytes_length, hn]),
      recField_step _ _ 16 8 8 (by simp [leBytes_length, hn]),
      recField_step _ _ 8 0 8 (by simp [leBytes_length, hn]),
      recField_first _ _ _ (leBytes_length 8 filesize),
      leValue_leBytes 8 filesize (lt_of_lt_of_le h6 (by norm_num))]
  · rw [recField_step _ _ 56 52 4 (by simp [leBytes_length, hn]),
      recField_step _ _ 52 48 4 (by simp [leBytes_length, hn]),
      recField_step _ _ 48 32 4 (by simp [leBytes_length, hn]),
      recField_step _ _ 32 24 4 (by simp [leBytes_length, hn]),
      recField_step _ _ 24 16 4 (by simp [leBytes_length, hn]),
      recField_step _ _ 16 8 4 (by simp [leBytes_length, hn]),
      recField_step _ _ 8 0 4 (by simp [leBytes_length, hn]),
      recField_first _ _ _ (leBytes_length 4 maxprot),
      leValue_leBytes 4 maxprot h7]
  · rw [recField_step _ _ 60 56 4 (by simp [leBytes_length, hn]),
      recField_step _ _ 56 52 4 (by simp [leBytes_length, hn]),
      recField_step _ _ 52 36 4 (by simp [leBytes_length, hn]),
      recField_step _ _ 36 28 4 (by simp [leBytes_length, hn]),
      recField_step _ _ 28 20 4 (by simp [leBytes_length, hn]),
      recField_step _ _ 20 12 4 (by simp [leBytes_length, hn]),
      recField_step _ _ 12 4 4 (by simp [leBytes_length, hn]),
      recField_step _ _ 4 0 4 (by simp [leBytes_length, hn]),
      recField_first _ _ _ (leBytes_length 4 initprot),
      leValue_leBytes 4 initprot h8]
  · rw [recField_step _ _ 64 60 4 (by simp [leBytes_length, hn]),
      recField_step _ _ 60 56 4 (by simp [leBytes_length, hn]),
      recField_step _ _ 56 40 4 (by simp [leBytes_length, hn]),
      recField_step _ _ 40 32 4 (by simp [leBytes_length, hn]),
      recField_step _ _ 32 24 4 (by simp [leBytes_length, hn]),
      recField_step _ _ 24 16 4 (by simp [leBytes_length, hn]),
      recField_step _ _ 16 8 4 (by simp [leBytes_length, hn]),
      recField_step _ _ 8 4 4 (by simp [leBytes_length, hn]),
      recField_step _ _ 4 0 4 (by simp [leBytes_length, hn]),
      recField_first _ _ _ (leBytes_length 4 nsects),
      leValue_leBytes 4 nsects h9]
  · rw [recField_step _ _ 68 64 4 (by simp [leBytes_length, hn]),
      recField_step _ _ 64 60 4 (by simp [leBytes_length, hn]),
      recField_step _ _ 60 44 4 (by simp [leBytes_length, hn]),
      recField_step _ _ 44 36 4 (by simp [leBytes_length, hn]),
      recField_step _ _ 36 28 4 (by simp [leBytes_length, hn]),
      recField_step _ _ 28 20 4 (by simp [leBytes_length, hn]),
      recField_step _ _ 20 12 4 (by simp [leBytes_length, hn]),
      recField_step _ _ 12 8 4 (by simp [leBytes_length, hn]),
      recField_step _ _ 8 4 4 (by simp [leBytes_length, hn]),
      recField_step _ _ 4 0 4 (by simp [leBytes_length, hn]),
      recField_all _ _ (leBytes_length 4 flags),
      leValue_leBytes 4 flags h10]

/-- Decoding the 32-bit ABI record of a section reproduces it. -/
theorem decodeSection_encode32 (s0 : MachOSection) (h : s0.Fits32) :
    decodeSection false (encodeSection32 s0) = s0 := by
  obtain ⟨sectname, segname, addr, size, offset, align, reloff, nreloc, flags, reserved1, reserved2⟩ := s0
  simp only [MachOSection.Fits32] at h
  obtain ⟨hn1, hn2, h1, h2, h3, h4, h5, h6, h7, h8, h9⟩ := h
  simp only [encodeSection32, decodeSection_false,
    MachOSection.mk.injEq]
  rw [padName_eq _ hn1]
  rw [padName_eq _ hn2]
  refine ⟨?_, ?_, ?_, ?_, ?_, ?_, ?_, ?_, ?_, ?_, ?_⟩
  · rw [recName_first _ _ hn1]
  · rw [recName_step _ _ 16 0 (by simp [leBytes_length, hn1, hn2]),
      recName_first _ _ hn2]
  · rw [recField_step _ _ 32 16 4 (by simp [leBytes_length, hn1, hn2]),
      recField_step _ _ 16 0 4 (by simp [leBytes_length, hn1, hn2]),
      recField_first _ _ _ (leBytes_length 4 addr),
      leValue_leBytes 4 addr h1]
  · rw [recField_step _ _ 36 20 4 (by simp [leBytes_length, hn1, hn2]),
      recField_step _ _ 20 4 4 (by simp [leBytes_length, hn1, hn2]),
      recField_step _ _ 4 0 4 (by simp [leBytes_length, hn1, hn2]),
      recField_first _ _ _ (leBytes_length 4 size),
      leValue_leBytes 4 size h2]
  · rw [recField_step _ _ 40 24 4 (by simp [leBytes_length, hn1, hn2]),
      recField_step _ _ 24 8 4 (by simp [leBytes_length, hn1, hn2]),
      recField_step _ _ 8 4 4 (by simp [leBytes_length, hn1, hn2]),
      recField_step _ _ 4 0 4 (by simp [leBytes_length, hn1, hn2]),
      recField_first _ _ _ (leBytes_length 4 offset),
      leValue_leBytes 4 offset h3]
  · rw [recField_step _ _ 44 28 4 (by simp [leBytes_length, hn1, hn2]),
      recField_step _ _ 28 12 4 (by simp [leBytes_length, hn1, hn2]),
      recField_step _ _ 12 8 4 (by simp [leBytes_length, hn1, hn2]),
      recField_step _ _ 8 4 4 (by simp [leBytes_length, hn1, hn2]),
      recField_step _ _ 4 0 4 (by simp [leBytes_length, hn1, hn2]),
      recField_first _ _ _ (leBytes_length 4 align),
      leValue_leBytes 4 align h4]
  · rw [recField_step _ _ 48 32 4 (by simp [leBytes_length, hn1, hn2]),
      recField_step _ _ 32 16 4 (by simp [leBytes_length, hn1, hn2]),
      recField_step _ _ 16 12 4 (by simp [leBytes_length, hn1, hn2]),
      recField_step _ _ 12 8 4 (by simp [leBytes_length, hn1, hn2]),
      recField_step _ _ 8 4 4 (by simp [leBytes_length, hn1, hn2]),
      recField_step _ _ 4 0 4 (by simp [leBytes_length, hn1, hn2]),
      recField_first _ _ _ (leBytes_length 4 reloff),
      leValue_leBytes 4 reloff h5]
  · rw [recField_step _ _ 52 36 4 (by simp [leBytes_length, hn1, hn2]),
      recField_step _ _ 36 20 4 (by simp [leBytes_length, hn1, hn2]),
      recField_step _ _ 20 16 4 (by simp [leBytes_length, hn1, hn2]),
      recField_step _ _ 16 12 4 (by simp [leBytes_length, hn1, hn2]),
      recField_step _ _ 12 8 4 (by simp [leBytes_length, hn1, hn2]),
      recField_step _ _ 8 4 4 (by simp [leBytes_length, hn1, hn2]),
      recField_step _ _ 4 0 4 (by simp [leBytes_length, hn1, hn2]),
      recField_first _ _ _ (leBytes_length 4 nreloc),
      leValue_leBytes 4 nreloc h6]
  · rw [recField_step _ _ 56 40 4 (by simp [leBytes_length, hn1, hn2]),
      recField_step _ _ 40 24 4 (by simp [leBytes_length, hn1, hn2]),
      recField_step _ _ 24 20 4 (by simp [leBytes_length, hn1, hn2]),
      recField_step _ _ 20 16 4 (by simp [leBytes_length, hn1, hn2]),
      recField_step _ _ 16 12 4 (by simp [leBytes_length, hn1, hn2]),
      recField_step _ _ 12 8 4 (by simp [leBytes_length, hn1, hn2]),
      recField_step _ _ 8 4 4 (by simp [leBytes_length, hn1, hn2]),
      recField_step _ _ 4 0 4 (by simp [leBytes_length, hn1, hn2]),
      recField_first _ _ _ (leBytes_length 4 flags),
      leValue_leBytes 4 flags h7]
  · rw [recField_step _ _ 60 44 4 (by simp [leBytes_length, hn1, hn2]),
      recField_step _ _ 44 28 4 (by simp [leBytes_length, hn1, hn2]),
      recField_step _ _ 28 24 4 (by simp [leBytes_length, hn1, hn2]),
      recField_step _ _ 24 20 4 (by simp [leBytes_length, hn1, hn2]),
      recField_step _ _ 20 16 4 (by simp [leBytes_length, hn1, hn2]),
      recField_step _ _ 16 12 4 (by simp [leBytes_length, hn1, hn2]),
      recField_step _ _ 12 8 4 (by simp [leBytes_length, hn1, hn2]),
      recField_step _ _ 8 4 4 (by simp [leBytes_length, hn1, hn2]),
      recField_step _ _ 4 0 4 (by simp [leBytes_length, hn1, hn2]),
      recField_first _ _ _ (leBytes_length 4 reserved1),
      leValue_leBytes 4 reserved1 h8]
  · rw [recField_step _ _ 64 48 4 (by simp [leBytes_length, hn1, hn2]),
      recField_step _ _ 48 32 4 (by simp [leBytes_length, hn1, hn2]),
      recField_step _ _ 32 28 4 (by simp [leBytes_length, hn1, hn2]),
      recField_step _ _ 28 24 4 (by simp [leBytes_length, hn1, hn2]),
      recField_step _ _ 24 20 4 (by simp [leBytes_length, hn1, hn2]),
      recField_step _ _ 20 16 4 (by simp [leBytes_length, hn1, hn2]),
      recField_step _ _ 16 12 4 (by simp [leBytes_length, hn1, hn2]),
      recField_step _ _ 12 8 4 (by simp [leBytes_length, hn1, hn2]),
      recField_step _ _ 8 4 4 (by simp [leBytes_length, hn1, hn2]),
      recField_step _ _ 4 0 4 (by simp [leBytes_length, hn1, hn2]),
      recField_all _ _ (leBytes_length 4 reserved2),
      leValue_leBytes 4 reserved2 h9]

/-- Decoding the 64-bit ABI record of a section reproduces it. -/
theorem decodeSection_encode64 (s0 : MachOSection) (h : s0.Fits32) :
    decodeSection true (encodeSection64 s0) = s0 := by
  obtain ⟨sectname, segname, addr, size, offset, align, reloff, nreloc, flags, reserved1, reserved2⟩ := s0
  simp only [MachOSection.Fits32] at h
  obtain ⟨hn1, hn2, h1, h2, h3, h4, h5, h6, h7, h8, h9⟩ := h
  simp only [encodeSection64, decodeSection_true,
    MachOSection.mk.injEq]
  rw [padName_eq _ hn1]
  rw [padName_eq _ hn2]
  refine ⟨?_, ?_, ?_, ?_, ?_, ?_, ?_, ?_, ?_, ?_, ?_⟩
  · rw [recName_first _ _ hn1]
  · rw [recName_step _ _ 16 0 (by simp [leBytes_length, hn1, hn2]),
      recName_first _ _ hn2]
  · rw [recField_step _ _ 32 16 8 (by simp [leBytes_length, hn1, hn2]),
      recField_step _ _ 16 0 8 (by simp [leBytes_length, hn1, hn2]),
      recField_first _ _ _ (leBytes_length 8 addr),
      leValue_leBytes 8 addr (lt_of_lt_of_le h1 (by norm_num))]
  · rw [recField_step _ _ 40 24 8 (by simp [leBytes_length, hn1, hn2]),
      recField_step _ _ 24 8 8 (by simp [leBytes_length, hn1, hn2]),
      recField_step _ _ 8 0 8 (by simp [leBytes_length, hn1, hn2]),
      recField_first _ _ _ (leBytes_length 8 size),
      leValue_leBytes 8 size (lt_of_lt_of_le h2 (by norm_num))]
  · rw [recField_step _ _ 48 32 4 (by simp [leBytes_length, hn1, hn2]),
      recField_step _ _ 32 16 4 (by simp [leBytes_length, hn1, hn2]),
      recField_step _ _ 16 8 4 (by simp [leBytes_length, hn1, hn2]),
      recField_step _ _ 8 0 4 (by simp [leBytes_length, hn1, hn2]),
      recField_first _ _ _ (leBytes_length 4 offset),
      leValue_leBytes 4 offset h3]
  · rw [recField_step _ _ 52 36 4 (by simp [leBytes_length, hn1, hn2]),
      recField_step _ _ 36 20 4 (by simp [leBytes_length, hn1, hn2]),
      recField_step _ _ 20 12 4 (by simp [leBytes_length, hn1, hn2]),
      recField_step _ _ 12 4 4 (by simp [leBytes_length, hn1, hn2]),
      recField_step _ _ 4 0 4 (by simp [leBytes_length, hn1, hn2]),
      recField_first _ _ _ (leBytes_length 4 align),
      leValue_leBytes 4 align h4]
  · rw [recField_step _ _ 56 40 4 (by simp [leBytes_length, hn1, hn2]),
      recField_step _ _ 40 24 4 (by simp [leBytes_length, hn1, hn2]),
      recField_step _ _ 24 16 4 (by simp [leBytes_length, hn1, hn2]),
      recField_step _ _ 16 8 4 (by simp [leBytes_length, hn1, hn2]),
      recField_step _ _ 8 4 4 (by simp [leBytes_length, hn1, hn2]),
      recField_step _ _ 4 0 4 (by simp [leBytes_length, hn1, hn2]),
      recField_first _ _ _ (leBytes_length 4 reloff),
      leValue_leBytes 4 reloff h5]
  · rw [recField_step _ _ 60 44 4 (by simp [leBytes_length, hn1, hn2]),
      recField_step _ _ 44 28 4 (by simp [leBytes_length, hn1, hn2]),
      recField_step _ _ 28 20 4 (by simp [leBytes_length, hn1, hn2]),
      recField_step _ _ 20 12 4 (by simp [leBytes_length, hn1, hn2]),
      recField_step _ _ 12 8 4 (by simp [leBytes_length, hn1, hn2]),
      recField_step _ _ 8 4 4 (by simp [leBytes_length, hn1, hn2]),
      recField_step _ _ 4 0 4 (by simp [leBytes_length, hn1, hn2]),
      recField_first _ _ _ (leBytes_length 4 nreloc),
      leValue_leBytes 4 nreloc h6]
  · rw [recField_step _ _ 64 48 4 (by simp [leBytes_length, hn1, hn2]),
      recField_step _ _ 48 32 4 (by simp [leBytes_length, hn1, hn2]),
      recField_step _ _ 32 24 4 (by simp [leBytes_length, hn1, hn2]),
      recField_step _ _ 24 16 4 (by simp [leBytes_length, hn1, hn2]),
      recField_step _ _ 16 12 4 (by simp [leBytes_length, hn1, hn2]),
      recField_step _ _ 12 8 4 (by simp [leBytes_length, hn1, hn2]),
      recField_step _ _ 8 4 4 (by simp [leBytes_length, hn1, hn2]),
      recField_step _ _ 4 0 4 (by simp [leBytes_length, hn1, hn2]),
      recField_first _ _ _ (leBytes_length 4 flags),
      leValue_leBytes 4 flags h7]
  · rw [recField_step _ _ 68 52 4 (by simp [leBytes_length, hn1, hn2]),
      recField_step _ _ 52 36 4 (by simp [leBytes_length, hn1, hn2]),
      recField_step _ _ 36 28 4 (by simp [leBytes_length, hn1, hn2]),
      recField_step _ _ 28 20 4 (by simp [leBytes_length, hn1, hn2]),
      recField_step _ _ 20 16 4 (by simp [leBytes_length, hn1, hn2]),
      recField_step _ _ 16 12 4 (by simp [leBytes_length, hn1, hn2]),
      recField_step _ _ 12 8 4 (by simp [leBytes_length, hn1, hn2]),
      recField_step _ _ 8 4 4 (by simp [leBytes_length, hn1, hn2]),
      recField_step _ _ 4 0 4 (by simp [leBytes_length, hn1, hn2]),
      recField_first _ _ _ (leBytes_length 4 reserved1),
      leValue_leBytes 4 reserved1 h8]
  · rw [recField_step _ _ 72 56 4 (by simp [leBytes_length, hn1, hn2]),
      recField_step _ _ 56 40 4 (by simp [leBytes_length, hn1, hn2]),
      recField_step _ _ 40 32 4 (by simp [leBytes_length, hn1, hn2]),
      recField_step _ _ 32 24 4 (by simp [leBytes_length, hn1, hn2]),
      recField_step _ _ 24 20 4 (by simp [leBytes_length, hn1, hn2]),
      recField_step _ _ 20 16 4 (by simp [leBytes_length, hn1, hn2]),
      recField_step _ _ 16 12 4 (by simp [leBytes_length, hn1, hn2]),
      recField_step _ _ 12 8 4 (by simp [leBytes_length, hn1, hn2]),
      recField_step _ _ 8 4 4 (by simp [leBytes_length, hn1, hn2]),
      recField_step _ _ 4 0 4 (by simp [leBytes_length, hn1, hn2]),
      recField_first _ _ _ (leBytes_length 4 reserved2),
      leValue_leBytes 4 reserved2 h9]


/-- The synthetic remote process reports the requested bitness. -/
theorem memOfBytes_is64 (is64 : Bool) (base : Nat) (bytes : List Byte)
    (resolve : Nat → Option Nat) :
    (memOfBytes is64 base bytes resolve).is64Bit = is64 := rfl

/-- Reading from the synthetic remote process returns the corresponding
slice of the hosted byte list. -/
theorem readBytes_memOfBytes (is64 : Bool) (base : Nat) (bytes : List Byte)
    (resolve : Nat → Option Nat) :
    ∀ (n off : Nat), off + n ≤ bytes.length →
    (memOfBytes is64 base bytes resolve).readBytes (base + off) n =
      some ((bytes.drop off).take n)
  | 0, off, _ => by simp [ProcessReader.readBytes]
  | n + 1, off, h => by
    have hoff : off < bytes.length := by omega
    have hbyte : (memOfBytes is64 base bytes resolve).readByte (base + off) =
        some bytes[off] := by
      show (if base ≤ base + off then bytes[base + off - base]? else none) = _
      rw [if_pos (Nat.le_add_right base off), Nat.add_sub_cancel_left,
        List.getElem?_eq_getElem hoff]
    have ih := readBytes_memOfBytes is64 base bytes resolve n (off + 1) (by omega)
    have haddr : base + off + 1 = base + (off + 1) := by omega
    unfold ProcessReader.readBytes
    rw [hbyte, haddr, ih, List.drop_eq_getElem_cons hoff, List.take_succ_cons]
    rfl

/-- Reading consecutive encoded section records from the synthetic remote
process decodes each record in file order. -/
theorem readSections_encoded (is64 : Bool) (base : Nat) (bytes : List Byte)
    (resolve : Nat → Option Nat) :
    ∀ (encs : List (List Byte)) (off : Nat),
    (∀ e ∈ encs, e.length = sectionRecordSize is64) →
    bytes.drop off = encs.flatten →
    off ≤ bytes.length →
    readSections (memOfBytes is64 base bytes resolve) (base + off) encs.length =
      some (encs.map (decodeSection is64))
  | [], off, _, _, _ => by simp [readSections]
  | e :: rest, off, hlen, hdrop, hoff => by
    have he : e.length = sectionRecordSize is64 := hlen e (by simp)
    have hlen_drop : bytes.length - off = e.length + rest.flatten.length := by
      have := congrArg List.length hdrop
      simpa using this
    have h1 : off + sectionRecordSize is64 ≤ bytes.length := by omega
    have hrb := readBytes_memOfBytes is64 base bytes resolve
      (sectionRecordSize is64) off h1
    have htake : (bytes.drop off).take (sectionRecordSize is64) = e := by
      rw [hdrop, List.flatten_cons, List.take_left' he]
    have hsec : readSection (memOfBytes is64 base bytes resolve) (base + off) =
        some (decodeSection is64 e) := by
      unfold readSection
      rw [memOfBytes_is64, hrb, htake]
      rfl
    have hdrop' : bytes.drop (off + sectionRecordSize is64) = rest.flatten := by
      rw [← List.drop_drop, hdrop, List.flatten_cons, List.drop_left' he]
    have ih := readSections_encoded is64 base bytes resolve rest
      (off + sectionRecordSize is64)
      (fun e' he' => hlen e' (by simp [he'])) hdrop' (by omega)
    show readSections _ _ (rest.length + 1) = _
    unfold readSections
    rw [hsec, memOfBytes_is64]
    have haddr : base + off + sectionRecordSize is64 =
        base + (off + sectionRecordSize is64) := by omega
    rw [haddr, ih]
    rfl

/-- A synthetic remote segment image: the 32-bit segment command record
with the layout-correct declared size followed by the 32-bit section
records in file order. -/
def encodeSegmentImage32 (sc : SegmentCommand) (secs : List MachOSection) :
    List Byte :=
  encodeSegmentCommand32 { sc with cmdsize := 56 + secs.length * 68 } ++
    (secs.map encodeSection32).flatten

/-- A synthetic remote segment image in the 64-bit record layout. -/
def encodeSegmentImage64 (sc : SegmentCommand) (secs : List MachOSection) :
    List Byte :=
  encodeSegmentCommand64 { sc with cmdsize := 72 + secs.length * 80 } ++
    (secs.map encodeSection64).flatten

/-- Decoding core over the synthetic 32-bit segment image reproduces the
segment command (with the 32-bit layout size) and every section. -/
theorem InitializeCore_encoded32 (info : String) (base : Nat)
    (resolve : Nat → Option Nat) (sc : SegmentCommand)
    (secs : List MachOSection) (hsc : sc.Fits32)
    (hsecs : ∀ s ∈ secs, s.Fits32) (hn : sc.nsects = secs.length)
    (hcount : secs.length ≤ 255) :
    MachOImageSegmentReader.InitializeCore
        (memOfBytes false base (encodeSegmentImage32 sc secs) resolve)
        base info =
      .ok ({ sc with cmdsize := 56 + secs.length * 68 }, secs) := by
  have hsc' : ({ sc with cmdsize := 56 + secs.length * 68 } :
      SegmentCommand).Fits32 := by
    simp only [SegmentCommand.Fits32] at hsc ⊢
    obtain ⟨h1, _, hn16, h3, h4, h5, h6, h7, h8, h9, h10⟩ := hsc
    exact ⟨h1, lt_of_le_of_lt (by omega : 56 + secs.length * 68 ≤ 17396)
      (by norm_num), hn16, h3, h4, h5, h6, h7, h8, h9, h10⟩
  have hbytes_len : (encodeSegmentImage32 sc secs).length =
      56 + ((secs.map encodeSection32).flatten).length := by
    simp [encodeSegmentImage32, encodeSegmentCommand32_length]
  have hrb := readBytes_memOfBytes false base (encodeSegmentImage32 sc secs)
    resolve 56 0 (by omega)
  rw [Nat.add_zero, List.drop_zero] at hrb
  have htake : (encodeSegmentImage32 sc secs).take 56 =
      encodeSegmentCommand32 { sc with cmdsize := 56 + secs.length * 68 } := by
    rw [encodeSegmentImage32]
    exact List.take_left' (encodeSegmentCommand32_length _)
  have hdecode := decodeSegmentCommand_encode32 _ hsc'
  have hdrop56 : (encodeSegmentImage32 sc secs).drop 56 =
      (secs.map encodeSection32).flatten := by
    rw [encodeSegmentImage32]
    exact List.drop_left' (encodeSegmentCommand32_length _)
  have hrs0 := readSections_encoded false base (encodeSegmentImage32 sc secs)
    resolve (secs.map encodeSection32) 56
    (by
      intro e he
      obtain ⟨s, _, rfl⟩ := List.mem_map.mp he
      exact encodeSection32_length s)
    hdrop56 (by omega)
  rw [List.length_map] at hrs0
  have hmap : (secs.map encodeSection32).map (decodeSection false) = secs := by
    rw [List.map_map]
    have hcong : ∀ s ∈ secs, (decodeSection false ∘ encodeSection32) s = id s :=
      fun s hs => by
        simp only [Function.comp_apply, id_eq]
        exact decodeSection_encode32 s (hsecs s hs)
    rw [List.map_congr_left hcong, List.map_id]
  rw [hmap] at hrs0
  have h56 : segmentCommandSize false = 56 := rfl
  have h68 : sectionRecordSize false = 68 := rfl
  unfold MachOImageSegmentReader.InitializeCore
  simp only [memOfBytes_is64, h56, h68, hrb, htake, hdecode]
  rw [hn]
  simp only [hrs0]
  simp

/-- Decoding core over the synthetic 64-bit segment image reproduces the
segment command (with the 64-bit layout size) and every section. -/
theorem InitializeCore_encoded64 (info : String) (base : Nat)
    (resolve : Nat → Option Nat) (sc : SegmentCommand)
    (secs : List MachOSection) (hsc : sc.Fits32)
    (hsecs : ∀ s ∈ secs, s.Fits32) (hn : sc.nsects = secs.length)
    (hcount : secs.length ≤ 255) :
    MachOImageSegmentReader.InitializeCore
        (memOfBytes true base (encodeSegmentImage64 sc secs) resolve)
        base info =
      .ok ({ sc with cmdsize := 72 + secs.length * 80 }, secs) := by
  have hsc' : ({ sc with cmdsize := 72 + secs.length * 80 } :
      SegmentCommand).Fits32 := by
    simp only [SegmentCommand.Fits32] at hsc ⊢
    obtain ⟨h1, _, hn16, h3, h4, h5, h6, h7, h8, h9, h10⟩ := hsc
    exact ⟨h1, lt_of_le_of_lt (by omega : 72 + secs.length * 80 ≤ 20472)
      (by norm_num), hn16, h3, h4, h5, h6, h7, h8, h9, h10⟩
  have hbytes_len : (encodeSegmentImage64 sc secs).length =
      72 + ((secs.map encodeSection64).flatten).length := by
    simp [encodeSegmentImage64, encodeSegmentCommand64_length]
  have hrb := readBytes_memOfBytes true base (encodeSegmentImage64 sc secs)
    resolve 72 0 (by omega)
  rw [Nat.add_zero, List.drop_zero] at hrb
  have htake : (encodeSegmentImage64 sc secs).take 72 =
      encodeSegmentCommand64 { sc with cmdsize := 72 + secs.length * 80 } := by
    rw [encodeSegmentImage64]
    exact List.take_left' (encodeSegmentCommand64_length _)
  have hdecode := decodeSegmentCommand_encode64 _ hsc'
  have hdrop72 : (encodeSegmentImage64 sc secs).drop 72 =
      (secs.map encodeSection64).flatten := by
    rw [encodeSegmentImage64]
    exact List.drop_left' (encodeSegmentCommand64_length _)
  have hrs0 := readSections_encoded true base (encodeSegmentImage64 sc secs)
    resolve (secs.map encodeSection64) 72
    (by
      intro e he
      obtain ⟨s, _, rfl⟩ := List.mem_map.mp he
      exact encodeSection64_length s)
    hdrop72 (by omega)
  rw [List.length_map] at hrs0
  have hmap : (secs.map encodeSection64).map (decodeSection true) = secs := by
    rw [List.map_map]
    have hcong : ∀ s ∈ secs, (decodeSection true ∘ encodeSection64) s = id s :=
      fun s hs => by
        simp only [Function.comp_apply, id_eq]
        exact decodeSection_encode64 s (hsecs s hs)
    rw [List.map_congr_left hcong, List.map_id]
  rw [hmap] at hrs0
  have h72 : segmentCommandSize true = 72 := rfl
  have h80 : sectionRecordSize true = 80 := rfl
  unfold MachOImageSegmentReader.InitializeCore
  simp only [memOfBytes_is64, h72, h80, hrb, htake, hdecode]
  rw [hn]
  simp only [hrs0]
  simp

/-- C3: Initialize decodes with the record layout selected by the target
bitness alone, and the 32-bit and 64-bit encodings of the same synthetic
segment command with its sections decode to the same normalized result:
both initializations succeed, reproduce vmaddr, vmsize, fileoff, nsects
and every section field exactly, and the resulting readers agree on every
normalized accessor; only the layout-specific declared command size
differs. -/
theorem C3_bitness_equivalence (info : String) (base32 base64 : Nat)
    (resolve : Nat → Option Nat) (sc : SegmentCommand)
    (secs : List MachOSection) (hsc : sc.Fits32)
    (hsecs : ∀ s ∈ secs, s.Fits32) (hn : sc.nsects = secs.length)
    (hcount : secs.length ≤ 255) :
    MachOImageSegmentReader.Initialize
        (memOfBytes false base32 (encodeSegmentImage32 sc secs) resolve)
        base32 info MachOImageSegmentReader.new =
      some ({ segment_command := { sc with cmdsize := 56 + secs.length * 68 }
              sections := secs, section_map := buildSectionMap secs
              guard := GuardState.valid }, true, none) ∧
    MachOImageSegmentReader.Initialize
        (memOfBytes true base64 (encodeSegmentImage64 sc secs) resolve)
        base64 info MachOImageSegmentReader.new =
      some ({ segment_command := { sc with cmdsize := 72 + secs.length * 80 }
              sections := secs, section_map := buildSectionMap secs
              guard := GuardState.valid }, true, none) ∧
    (∀ (r32 r64 : MachOImageSegmentReader) (ok32 ok64 : Bool)
        (d32 d64 : Option String),
      MachOImageSegmentReader.Initialize
          (memOfBytes false base32 (encodeSegmentImage32 sc secs) resolve)
          base32 info MachOImageSegmentReader.new = some (r32, ok32, d32) →
      MachOImageSegmentReader.Initialize
          (memOfBytes true base64 (encodeSegmentImage64 sc secs) resolve)
          base64 info MachOImageSegmentReader.new = some (r64, ok64, d64) →
      r32.vmaddr = r64.vmaddr ∧ r32.vmsize = r64.vmsize ∧
      r32.fileoff = r64.fileoff ∧ r32.nsects = r64.nsects ∧
      r32.Name = r64.Name ∧
      (∀ i : Nat, r32.GetSectionAtIndex i = r64.GetSectionAtIndex i) ∧
      (∀ nm : List Byte, r32.GetSectionByName nm = r64.GetSectionByName nm)) := by
  have hcore32 :=
    InitializeCore_encoded32 info base32 resolve sc secs hsc hsecs hn hcount
  have hcore64 :=
    InitializeCore_encoded64 info base64 resolve sc secs hsc hsecs hn hcount
  have hinit32 : MachOImageSegmentReader.Initialize
      (memOfBytes false base32 (encodeSegmentImage32 sc secs) resolve)
      base32 info MachOImageSegmentReader.new =
      some ({ segment_command := { sc with cmdsize := 56 + secs.length * 68 }
              sections := secs, section_map := buildSectionMap secs
              guard := GuardState.valid }, true, none) := by
    unfold MachOImageSegmentReader.Initialize
    simp only [MachOImageSegmentReader.new, hcore32]
  have hinit64 : MachOImageSegmentReader.Initialize
      (memOfBytes true base64 (encodeSegmentImage64 sc secs) resolve)
      base64 info MachOImageSegmentReader.new =
      some ({ segment_command := { sc with cmdsize := 72 + secs.length * 80 }
              sections := secs, section_map := buildSectionMap secs
              guard := GuardState.valid }, true, none) := by
    unfold MachOImageSegmentReader.Initialize
    simp only [MachOImageSegmentReader.new, hcore64]
  refine ⟨hinit32, hinit64, ?_⟩
  intro r32 r64 ok32 ok64 d32 d64 h1 h2
  rw [hinit32] at h1
  rw [hinit64] at h2
  have e1 := Option.some.inj h1
  have e2 := Option.some.inj h2
  have hr32 := (congrArg Prod.fst e1).symm
  have hr64 := (congrArg Prod.fst e2).symm
  subst hr32
  subst hr64
  exact ⟨rfl, rfl, rfl, rfl, rfl, fun _ => rfl, fun _ => rfl⟩

/-- Raw 16-byte name field for `__TEXT`. -/
def sampleSegName : List Byte := padName [95, 95, 84, 69, 88, 84]

/-- Raw 16-byte name field for `__text`. -/
def sampleSect1Name : List Byte := padName [95, 95, 116, 101, 120, 116]

/-- Raw 16-byte name field for `__const`. -/
def sampleSect2Name : List Byte := padName [95, 95, 99, 111, 110, 115, 116]

/-- A concrete `__TEXT` segment command with two sections. -/
def sampleSeg : SegmentCommand :=
  { cmd := 1, cmdsize := 0, segname := sampleSegName, vmaddr := 4096
    vmsize := 8192, fileoff := 0, filesize := 8192, maxprot := 7
    initprot := 5, nsects := 2, flags := 0 }

/-- A concrete `__text` section. -/
def sampleSec1 : MachOSection :=
  { sectname := sampleSect1Name, segname := sampleSegName, addr := 4200
    size := 100, offset := 104, align := 2, reloff := 0, nreloc := 0
    flags := 0, reserved1 := 0, reserved2 := 0 }

/-- A concrete `__const` section. -/
def sampleSec2 : MachOSection :=
  { sectname := sampleSect2Name, segname := sampleSegName, addr := 4400
    size := 50, offset := 304, align := 3, reloff := 0, nreloc := 0
    flags := 1, reserved1 := 0, reserved2 := 0 }

/-- A synthetic 32-bit remote process hosting the concrete segment at
address 8192. -/
def sampleSegMem : ProcessReader :=
  memOfBytes false 8192 (encodeSegmentImage32 sampleSeg [sampleSec1, sampleSec2])
    (fun _ => none)

/-- The reader produced by a successful Initialize on the concrete
segment. -/
def sampleSegReader : MachOImageSegmentReader :=
  ((MachOImageSegmentReader.Initialize sampleSegMem 8192 "LC 1"
      MachOImageSegmentReader.new).getD
    (MachOImageSegmentReader.new, false, none)).1

/-- Witness for C3 at a concrete input: initializing from the 32-bit
encoding of the concrete `__TEXT` segment succeeds and reproduces the
segment command and both sections exactly. -/
theorem C3_bitness_equivalence_witness :
    MachOImageSegmentReader.Initialize sampleSegMem 8192 "LC 1"
      MachOImageSegmentReader.new =
      some ({ segment_command := { sampleSeg with cmdsize := 56 + 2 * 68 }
              sections := [sampleSec1, sampleSec2]
              section_map := buildSectionMap [sampleSec1, sampleSec2]
              guard := GuardState.valid }, true, none) := by
  have h := C3_bitness_equivalence "LC 1" 8192 4096 (fun _ => none)
    sampleSeg [sampleSec1, sampleSec2] (by decide) (by decide) (by decide)
    (by decide)
  exact h.1

/-- Witness for C5 at concrete inputs: looking up `__text` returns the
first section, the same one GetSectionAtIndex 0 returns, and looking up an
absent name returns the NULL sentinel. -/
theorem C5_section_by_name_witness :
    sampleSegReader.GetSectionByName (SectionNameString sampleSect1Name) =
      some (sampleSegReader.GetSectionAtIndex 0) ∧
    sampleSegReader.GetSectionByName [95, 95, 109, 105, 115, 115] = some none := by
  have h := C5_section_by_name sampleSegMem 8192 "LC 1"
    MachOImageSegmentReader.new sampleSegReader none
    (SectionNameString sampleSect1Name) (by decide)
  have h' := C5_section_by_name sampleSegMem 8192 "LC 1"
    MachOImageSegmentReader.new sampleSegReader none
    [95, 95, 109, 105, 115, 115] (by decide)
  refine ⟨?_, h'.1.mpr (by decide)⟩
  exact (h.2 0 sampleSec1 (by decide) (by decide)
    (fun j sec' hj _ => absurd hj (Nat.not_lt_zero j))).1

/-- Witness for C6 at concrete inputs: index 1 (the last of 2 sections)
succeeds and index 2 (equal to the section count) aborts. -/
theorem C6_section_at_index_witness :
    (sampleSegReader.GetSectionAtIndex 1).isSome ∧
    sampleSegReader.GetSectionAtIndex 2 = none := by
  have h := C6_section_at_index sampleSegMem 8192 "LC 1"
    MachOImageSegmentReader.new sampleSegReader none 2 (by decide) (by decide)
  exact ⟨by simpa using h.2.2.1 (by norm_num), h.2.2.2 2 (Nat.le_refl 2)⟩

/-- A synthetic 32-bit remote process hosting a segment command whose
declared size 0 contradicts its two declared sections. -/
def sampleBadSegMem : ProcessReader :=
  memOfBytes false 8192 (encodeSegmentCommand32 sampleSeg) (fun _ => none)

/-- Witness for C7 at a concrete input: the declared size 0 does not equal
56 + 2 * 68, so Initialize fails with the labelled diagnostic and leaves
the instance invalid. -/
theorem C7_cmdsize_validation_witness :
    MachOImageSegmentReader.Initialize sampleBadSegMem 8192 "LC 1"
      MachOImageSegmentReader.new =
      some ({ MachOImageSegmentReader.new with guard := GuardState.invalid },
        false, some ("LC 1" ++ ": incorrect segment load command size")) := by
  have h := (C7_cmdsize_validation sampleBadSegMem 8192 "LC 1").1
    (encodeSegmentCommand32 sampleSeg) (by decide) (by decide)
  exact h.2 MachOImageSegmentReader.new (by decide)

/-- A concrete `__PAGEZERO` segment command with no sections. -/
def samplePagezeroSeg : SegmentCommand :=
  { cmd := 1, cmdsize := 0
    segname := padName MachOImageSegmentReader.pagezeroSegmentName
    vmaddr := 0, vmsize := 4096, fileoff := 0, filesize := 0, maxprot := 0
    initprot := 0, nsects := 0, flags := 0 }

/-- A synthetic 32-bit remote process hosting the `__PAGEZERO` segment. -/
def samplePagezeroMem : ProcessReader :=
  memOfBytes false 4096 (encodeSegmentImage32 samplePagezeroSeg [])
    (fun _ => none)

/-- The reader produced by a successful Initialize on the `__PAGEZERO`
segment. -/
def samplePagezeroReader : MachOImageSegmentReader :=
  ((MachOImageSegmentReader.Initialize samplePagezeroMem 4096 "LC 0"
      MachOImageSegmentReader.new).getD
    (MachOImageSegmentReader.new, false, none)).1

/-- Witness for C8 at concrete inputs: the `__PAGEZERO` segment does not
slide and the `__TEXT` segment does. -/
theorem C8_segment_slides_witness :
    samplePagezeroReader.SegmentSlides = some false ∧
    sampleSegReader.SegmentSlides = some true := by
  have h1 := C8_segment_slides samplePagezeroMem 4096 "LC 0"
    MachOImageSegmentReader.new samplePagezeroReader none (by decide)
  have h2 := C8_segment_slides sampleSegMem 8192 "LC 1"
    MachOImageSegmentReader.new sampleSegReader none (by decide)
  exact ⟨h1.1.mpr (by decide),
    h2.2 (SegmentNameString sampleSegName) (by decide) (by decide)⟩

end Crashpad
